import Mathlib

/-!
# pebble-roon-remote: the interaction controller

A shallow embedding of `src/c/pebble-roon-remote.c`.  The file-scope variables of
the C program and the part of the Pebble runtime they interact with (the app-timer
service, the clock, the app-message outbox) are gathered in one record, `World`;
every C function becomes a function on `World`.  `ENABLE_VOLUME` is `0`, so the
code under `#if ENABLE_VOLUME` is not part of the program.

Modelling conventions.
* Time is a natural number of milliseconds.
* An `AppTimer *` is a natural number; `app_timer_register` hands out the value of a
  counter that only grows, so a handle is never reused.  `NULL` is `none`.
* A pending timer may be delivered at any moment at or after its deadline, never before.
* `app_message_outbox_begin` answers with the value of `outbox_result`, which the
  environment may change at any time.
* A layer pointer and the layer it points to are one `Option` value.  The bitmap
  logo layer has no influence on anything below and is left out.
* `APP_LOG` only writes diagnostics and is left out.
* Four fields of `World` record calls: `sent` (every `app_message_outbox_send`, with
  its time and command), `outbox_begin_calls`, `update_ui_calls` (every entry into
  `update_ui`, before its guard) and `vibes`.

Layout: the embedding; the invariants and the states and traces used as examples;
lemmas about the single functions and about runs (`WF`, `Throttle`, `ZoneLive` hold
along every run from `World.init`; `Recovering` and `ZoneTimed` along runs without a
window unload; `Styled` while the window is loaded once and stays); the claims C1 to
C20 of the specification.
-/

namespace PebbleRoon

/-! ## Data -/

/-- The enum `AppMode` with `ENABLE_VOLUME` off. -/
inductive AppMode where
  | MODE_TRACK
  | MODE_ZONE
  deriving DecidableEq, Repr

/-- The three colours the program uses. -/
inductive GColor where
  | GColorWhite
  | GColorBlack
  | GColorClear
  deriving DecidableEq, Repr

/-- Result of `app_message_outbox_begin`. -/
inductive AppMessageResult where
  | APP_MSG_OK
  | APP_MSG_BUSY
  | APP_MSG_OTHER (code : Nat)
  deriving DecidableEq, Repr

/-- What a text layer's text pointer refers to: nothing, a string literal, the
buffer `s_zone_buf`, or a C string inside a received message. -/
inductive TextRef where
  | null
  | static (s : String)
  | zone_buf
  | inbox (bytes : List Nat)
  deriving DecidableEq, Repr

/-- A `TextLayer` as far as the program sets it. -/
structure TextLayer where
  text : TextRef
  background_color : GColor
  text_color : GColor
  deriving DecidableEq, Repr

/-- A plain `Layer`: only its dirty mark matters. -/
structure Layer where
  dirty : Bool
  deriving DecidableEq, Repr

/-- The three callbacks the program registers with the timer service. -/
inductive TimerCallback where
  | cooldown_cb
  | send_playpause_cb
  | zone_revert_callback
  deriving DecidableEq, Repr

/-- A timer pending in the timer service. -/
structure AppTimer where
  id : Nat
  deadline : Nat
  callback : TimerCallback
  deriving DecidableEq, Repr

/-- A dictionary tuple: key, declared length and the bytes found at its value
address (bytes past the end of the list read as 0). -/
structure Tuple where
  key : Nat
  length : Nat
  value : List Nat
  deriving DecidableEq, Repr

/-- A received dictionary. -/
abbrev DictionaryIterator := List Tuple

def KEY_COMMAND : Nat := 0
def KEY_ZONE_NAME : Nat := 1
def KEY_TRACK : Nat := 2
def KEY_ARTIST : Nat := 3
def KEY_IS_PLAYING : Nat := 4
def KEY_VOLUME_VAL : Nat := 5
def KEY_IS_FIXED : Nat := 6

/-- The program's variables together with the runtime state they interact with. -/
structure World where
  s_mode : AppMode
  s_window_loaded : Bool
  s_track_layer : Option TextLayer
  s_artist_layer : Option TextLayer
  s_zone_layer : Option TextLayer
  s_status_layer : Option Layer
  s_network_cooldown_timer : Option Nat
  s_playpause_delay_timer : Option Nat
  s_zone_revert_timer : Option Nat
  s_zone_buf : List Nat
  s_is_playing : Bool
  s_is_fixed : Bool
  s_network_ready : Bool
  now : Nat
  timers : List AppTimer
  next_timer : Nat
  outbox_result : AppMessageResult
  sent : List (Nat × String)
  outbox_begin_calls : Nat
  update_ui_calls : Nat
  vibes : Nat
  deriving DecidableEq, Repr

/-- The state at process start: the static initialisers of the C file, an empty
timer service, time 0. -/
def World.init : World where
  s_mode := .MODE_TRACK
  s_window_loaded := false
  s_track_layer := none
  s_artist_layer := none
  s_zone_layer := none
  s_status_layer := none
  s_network_cooldown_timer := none
  s_playpause_delay_timer := none
  s_zone_revert_timer := none
  s_zone_buf := List.replicate 64 0
  s_is_playing := false
  s_is_fixed := false
  s_network_ready := true
  now := 0
  timers := []
  next_timer := 1
  outbox_result := .APP_MSG_OK
  sent := []
  outbox_begin_calls := 0
  update_ui_calls := 0
  vibes := 0

/-! ## Runtime services -/

/-- Model of `app_timer_register(ms, cb, NULL)`: a fresh handle, due `ms` from now. -/
def app_timer_register (ms : Nat) (cb : TimerCallback) (w : World) : Nat × World :=
  (w.next_timer,
    { w with timers := w.timers ++ [⟨w.next_timer, w.now + ms, cb⟩],
             next_timer := w.next_timer + 1 })

/-- Model of `app_timer_cancel(h)`: the timer with that handle, if pending, is dropped. -/
def app_timer_cancel (h : Nat) (w : World) : World :=
  { w with timers := w.timers.filter (fun tm => tm.id != h) }

/-- The C string at an address: the bytes before the first NUL. -/
def cstring (bytes : List Nat) : List Nat :=
  bytes.takeWhile (fun b => b != 0)

/-- Model of `snprintf(buf, size, "%s", src)`: at most `size - 1` bytes of the C
string, then a NUL; the rest of the buffer keeps its bytes. -/
def snprintf (buf : List Nat) (size : Nat) (src : List Nat) : List Nat :=
  if size = 0 then buf
  else
    let body := (cstring src).take (size - 1)
    body ++ 0 :: buf.drop (body.length + 1)

/-- Byte `i` at a tuple's value address. -/
def Tuple.byte (t : Tuple) (i : Nat) : Nat :=
  t.value.getD i 0 % 256

/-- The union member `value->int8`. -/
def Tuple.int8 (t : Tuple) : Int :=
  let u := t.byte 0
  if u < 128 then (u : Int) else (u : Int) - 256

/-- The union member `value->int16` (little endian). -/
def Tuple.int16 (t : Tuple) : Int :=
  let u := t.byte 0 + 256 * t.byte 1
  if u < 32768 then (u : Int) else (u : Int) - 65536

/-- The union member `value->int32` (little endian). -/
def Tuple.int32 (t : Tuple) : Int :=
  let u := t.byte 0 + 256 * t.byte 1 + 65536 * t.byte 2 + 16777216 * t.byte 3
  if u < 2147483648 then (u : Int) else (u : Int) - 4294967296

/-- Model of `dict_find`: the first tuple with the key. -/
def dict_find (iter : DictionaryIterator) (key : Nat) : Option Tuple :=
  iter.find? (fun t => t.key == key)

/-- Model of `if (layer) layer_mark_dirty(layer)`: the layer after the call. -/
def layer_mark_dirty (layer : Option Layer) : Option Layer :=
  match layer with
  | some _ => some ⟨true⟩
  | none => none

/-! ## The program -/

/-- Embeds `get_tuple_int`. -/
def get_tuple_int (t : Option Tuple) : Int :=
  match t with
  | none => -1
  | some t =>
    if t.length = 1 then t.int8
    else if t.length = 2 then t.int16
    else if t.length = 4 then t.int32
    else t.int32

/-- Embeds `cooldown_cb`. -/
def cooldown_cb (w : World) : World :=
  { w with s_network_ready := true, s_network_cooldown_timer := none }

/-- Embeds `trigger_cooldown`. -/
def trigger_cooldown (w : World) : World :=
  let w1 := { w with s_network_ready := false }
  let w2 := match w1.s_network_cooldown_timer with
    | some h => app_timer_cancel h w1
    | none => w1
  let r := app_timer_register 250 .cooldown_cb w2
  { r.2 with s_network_cooldown_timer := some r.1 }

/-- Embeds `send_command`. -/
def send_command (cmd : String) (w : World) : World :=
  if !w.s_window_loaded then w
  else if !w.s_network_ready then w
  else
    let w1 := { w with outbox_begin_calls := w.outbox_begin_calls + 1 }
    if w1.outbox_result = .APP_MSG_OK then
      trigger_cooldown { w1 with sent := w1.sent ++ [(w1.now, cmd)] }
    else w1

/-- Embeds `safe_set_text`: the layer after the call. -/
def safe_set_text (w : World) (layer : Option TextLayer) (text : TextRef) : Option TextLayer :=
  match layer with
  | some l =>
    if w.s_window_loaded && text != .null then some ⟨text, l.background_color, l.text_color⟩
    else some l
  | none => none

/-- Embeds `update_ui`. -/
def update_ui (w : World) : World :=
  let w1 := { w with update_ui_calls := w.update_ui_calls + 1 }
  if !w1.s_window_loaded then w1
  else
    match safe_set_text w1 w1.s_zone_layer .zone_buf with
    | some l =>
      if w1.s_mode = .MODE_ZONE then
        { w1 with s_zone_layer := some ⟨l.text, .GColorWhite, .GColorBlack⟩ }
      else
        { w1 with s_zone_layer := some ⟨l.text, .GColorClear, .GColorWhite⟩ }
    | none => w1

/-- Embeds `zone_revert_callback`. -/
def zone_revert_callback (w : World) : World :=
  let w1 := { w with s_zone_revert_timer := none }
  if w1.s_mode = .MODE_ZONE then
    update_ui { w1 with s_mode := .MODE_TRACK }
  else w1

/-- Embeds `reset_zone_timer`. -/
def reset_zone_timer (w : World) : World :=
  let w1 := match w.s_zone_revert_timer with
    | some h => app_timer_cancel h w
    | none => w
  let r := app_timer_register 4000 .zone_revert_callback w1
  { r.2 with s_zone_revert_timer := some r.1 }

/-- Embeds `cancel_zone_timer`. -/
def cancel_zone_timer (w : World) : World :=
  match w.s_zone_revert_timer with
  | some h => { (app_timer_cancel h w) with s_zone_revert_timer := none }
  | none => w

/-- Embeds `up_click_handler`. -/
def up_click_handler (w : World) : World :=
  if w.s_mode = .MODE_TRACK then send_command "previous" w
  else if w.s_mode = .MODE_ZONE then send_command "prev_zone" (reset_zone_timer w)
  else w

/-- Embeds `down_click_handler`. -/
def down_click_handler (w : World) : World :=
  if w.s_mode = .MODE_TRACK then send_command "next" w
  else if w.s_mode = .MODE_ZONE then send_command "next_zone" (reset_zone_timer w)
  else w

/-- Embeds `select_click_handler`. -/
def select_click_handler (w : World) : World :=
  let w1 :=
    if w.s_mode = .MODE_TRACK then
      reset_zone_timer { w with s_mode := .MODE_ZONE }
    else if w.s_mode = .MODE_ZONE then
      { (send_command "status" (cancel_zone_timer w)) with s_mode := .MODE_TRACK }
    else w
  update_ui w1

/-- Embeds `send_playpause_cb`. -/
def send_playpause_cb (w : World) : World :=
  send_command "playpause" { w with s_playpause_delay_timer := none }

/-- Embeds `select_long_click_handler`. -/
def select_long_click_handler (w : World) : World :=
  let w1 := { w with vibes := w.vibes + 1 }
  let w2 := match w1.s_playpause_delay_timer with
    | some h => app_timer_cancel h w1
    | none => w1
  let r := app_timer_register 100 .send_playpause_cb w2
  let w3 : World := { r.2 with s_playpause_delay_timer := some r.1 }
  if w3.s_mode = .MODE_ZONE then reset_zone_timer w3 else w3

/-- Embeds `inbox_received_callback`. -/
def inbox_received_callback (iterator : DictionaryIterator) (w : World) : World :=
  if !w.s_window_loaded then w
  else
    let w1 := match dict_find iterator KEY_ZONE_NAME with
      | some t =>
        let wa := { w with s_zone_buf := snprintf w.s_zone_buf 64 t.value }
        { wa with s_zone_layer := safe_set_text wa wa.s_zone_layer .zone_buf }
      | none => w
    let w2 := match dict_find iterator KEY_TRACK with
      | some t =>
        { w1 with s_track_layer := safe_set_text w1 w1.s_track_layer (.inbox (cstring t.value)) }
      | none => w1
    let w3 := match dict_find iterator KEY_ARTIST with
      | some t =>
        { w2 with s_artist_layer := safe_set_text w2 w2.s_artist_layer (.inbox (cstring t.value)) }
      | none => w2
    let w4 := match dict_find iterator KEY_IS_PLAYING with
      | some t =>
        { w3 with s_is_playing := decide (t.int32 = 1),
                  s_status_layer := layer_mark_dirty w3.s_status_layer }
      | none => w3
    match dict_find iterator KEY_IS_FIXED with
    | some t => { w4 with s_is_fixed := decide (t.int32 = 1) }
    | none => w4

/-- Embeds `window_load` (the text layers, the status layer, the flag). -/
def window_load (w : World) : World :=
  { w with
    s_track_layer := some ⟨.static "Loading...", .GColorClear, .GColorWhite⟩,
    s_artist_layer := some ⟨.null, .GColorClear, .GColorWhite⟩,
    s_status_layer := some ⟨true⟩,
    s_zone_layer := some ⟨.static "Connecting...", .GColorClear, .GColorWhite⟩,
    s_window_loaded := true }

/-- Embeds `window_unload`. -/
def window_unload (w : World) : World :=
  let w1 := { w with s_window_loaded := false }
  let w2 := match w1.s_network_cooldown_timer with
    | some h => app_timer_cancel h w1
    | none => w1
  let w3 := match w2.s_playpause_delay_timer with
    | some h => app_timer_cancel h w2
    | none => w2
  let w4 := cancel_zone_timer w3
  { w4 with s_track_layer := none, s_artist_layer := none, s_zone_layer := none,
            s_status_layer := none }

/-! ## The event loop -/

/-- Runs a timer's callback. -/
def TimerCallback.run : TimerCallback → World → World
  | .cooldown_cb => PebbleRoon.cooldown_cb
  | .send_playpause_cb => PebbleRoon.send_playpause_cb
  | .zone_revert_callback => PebbleRoon.zone_revert_callback

/-- The timer service delivers timer `id`: possible only when it is pending and due;
the timer leaves the service and its callback runs. -/
def fire_timer (id : Nat) (w : World) : World :=
  match w.timers.find? (fun tm => tm.id == id) with
  | some tm =>
    if tm.deadline ≤ w.now then
      tm.callback.run { w with timers := w.timers.filter (fun x => x.id != id) }
    else w
  | none => w

/-- What the event loop can deliver, one at a time. -/
inductive Event where
  | tick (ms : Nat)
  | up
  | down
  | select
  | select_long
  | fire (id : Nat)
  | inbox (msg : DictionaryIterator)
  | load
  | unload
  | outbox (r : AppMessageResult)
  deriving DecidableEq, Repr

/-- One event, run to completion. -/
def step (w : World) : Event → World
  | .tick ms => { w with now := w.now + ms }
  | .up => up_click_handler w
  | .down => down_click_handler w
  | .select => select_click_handler w
  | .select_long => select_long_click_handler w
  | .fire id => fire_timer id w
  | .inbox msg => inbox_received_callback msg w
  | .load => window_load w
  | .unload => window_unload w
  | .outbox r => { w with outbox_result := r }

/-- A sequence of events from a state. -/
def run (w : World) (es : List Event) : World :=
  es.foldl step w

/-- The states the program can be in: those a sequence of events leads to from
the initial state. -/
def Reachable (w : World) : Prop :=
  ∃ es : List Event, run World.init es = w

/-! ## Invariants and test states -/

/-- The handle variable that belongs to a callback. -/
def World.handle (w : World) : TimerCallback → Option Nat
  | .cooldown_cb => w.s_network_cooldown_timer
  | .send_playpause_cb => w.s_playpause_delay_timer
  | .zone_revert_callback => w.s_zone_revert_timer

/-- The pending timers with a given callback. -/
def World.pending (w : World) (cb : TimerCallback) : List AppTimer :=
  w.timers.filter (fun tm => tm.callback = cb)

/-- Handle discipline: every pending timer has a handle below the counter and is the
one its own handle variable refers to, and no other handle variable refers to it;
every stored handle is below the counter; no two pending timers share a handle. -/
structure WF (w : World) : Prop where
  fresh : ∀ tm ∈ w.timers, tm.id < w.next_timer
  tracked : ∀ tm ∈ w.timers, w.handle tm.callback = some tm.id
  exclusive : ∀ tm ∈ w.timers, ∀ cb, w.handle cb = some tm.id → cb = tm.callback
  stored : ∀ cb h, w.handle cb = some h → h < w.next_timer
  distinct : w.timers.Pairwise (fun a b => a.id ≠ b.id)

/-- The timers left after `if (h) app_timer_cancel(h)`. -/
def cancel_opt (h : Option Nat) (l : List AppTimer) : List AppTimer :=
  match h with
  | some h => l.filter (fun tm => tm.id != h)
  | none => l

/-- The throttle's invariant: while a cooldown timer is pending the channel is not
ready and the timer is due no earlier than 250 ms after every send; when the channel
is ready every send lies at least 250 ms back; sends lie in the past and are spaced. -/
structure Throttle (w : World) : Prop where
  cooling : ∀ tm ∈ w.timers, tm.callback = .cooldown_cb →
    w.s_network_ready = false ∧ ∀ e ∈ w.sent, e.1 + 250 ≤ tm.deadline
  ready_gap : w.s_network_ready = true → ∀ e ∈ w.sent, e.1 + 250 ≤ w.now
  past : ∀ e ∈ w.sent, e.1 ≤ w.now
  spaced : w.sent.Pairwise (fun a b => a.1 + 250 ≤ b.1)

/-- While the channel is not ready, a cooldown timer is pending that is due 250 ms
after a recorded send. -/
def Recovering (w : World) : Prop :=
  w.s_network_ready = false →
    ∃ tm ∈ w.timers, tm.callback = .cooldown_cb ∧ ∃ e ∈ w.sent, tm.deadline = e.1 + 250

/-- The four button events. -/
def Event.is_button : Event → Bool
  | .up => true
  | .down => true
  | .select => true
  | .select_long => true
  | _ => false

/-- Timer `id`, as long as it is pending, is a Zone revert timer and the mode is Zone. -/
def Armed (id : Nat) (w : World) : Prop :=
  id < w.next_timer ∧
  ∀ tm ∈ w.timers, tm.id = id → tm.callback = .zone_revert_callback ∧ w.s_mode = .MODE_ZONE

/-- A loaded window whose outbox is busy. -/
def busy_world : World :=
  run World.init [.load, .outbox .APP_MSG_BUSY]

/-- A loaded window in Zone mode, 1000 ms after the Select press that entered it. -/
def zone_world : World :=
  run World.init [.load, .select, .tick 1000]

/-- A command is sent at time 0; 250 ms pass and the cooldown timer, now due, has not
been delivered yet. -/
def undelivered_trace : List Event :=
  [.load, .up, .tick 250]

/-- A burst of Select-Long presses: one press, then for every gap that much time and
another press. -/
def long_presses : List Nat → List Event
  | [] => [.select_long]
  | d :: ds => .select_long :: .tick d :: long_presses ds

/-- A freshly loaded window. -/
def loaded_world : World :=
  run World.init [.load]

/-- The part of the state a button handler leaves alone while the window is not
loaded: the four layers, the loaded flag, the log of sends, the outbox counter, the
ready flag and the cooldown handle. -/
structure Untouched (w w' : World) : Prop where
  track : w'.s_track_layer = w.s_track_layer
  artist : w'.s_artist_layer = w.s_artist_layer
  zone : w'.s_zone_layer = w.s_zone_layer
  status : w'.s_status_layer = w.s_status_layer
  loaded : w'.s_window_loaded = w.s_window_loaded
  sent : w'.sent = w.sent
  begun : w'.outbox_begin_calls = w.outbox_begin_calls
  ready : w'.s_network_ready = w.s_network_ready
  cooldown : w'.s_network_cooldown_timer = w.s_network_cooldown_timer

/-- In Zone mode a Zone revert timer is pending, due at most 4000 ms from now. -/
def ZoneTimed (w : World) : Prop :=
  w.s_mode = .MODE_ZONE →
    ∃ tm ∈ w.timers, tm.callback = .zone_revert_callback ∧ tm.deadline ≤ w.now + 4000

/-- A pending Zone revert timer means the mode is Zone. -/
def ZoneLive (w : World) : Prop :=
  ∀ tm ∈ w.timers, tm.callback = .zone_revert_callback → w.s_mode = .MODE_ZONE

/-- The zone line's highlighted look: white background, black text. -/
def TextLayer.highlighted (l : TextLayer) : Bool :=
  l.background_color = .GColorWhite && l.text_color = .GColorBlack

/-- The window is loaded and its zone line is highlighted exactly in Zone mode. -/
def Styled (w : World) : Prop :=
  w.s_window_loaded = true ∧
    ∃ l, w.s_zone_layer = some l ∧ (l.highlighted = true ↔ w.s_mode = .MODE_ZONE)

/-- The host's 1-byte two's-complement encoding of an integer. -/
def encode_int8 (v : Int) : List Nat :=
  [(v % 256).toNat]

/-- The host's 2-byte little-endian two's-complement encoding of an integer. -/
def encode_int16 (v : Int) : List Nat :=
  [(v % 256).toNat, (v / 256 % 256).toNat]

/-- The host's 4-byte little-endian two's-complement encoding of an integer. -/
def encode_int32 (v : Int) : List Nat :=
  [(v % 256).toNat, (v / 256 % 256).toNat, (v / 65536 % 256).toNat,
    (v / 16777216 % 256).toNat]

theorem drop_body (body rest : List Nat) :
    (body ++ 0 :: rest).drop (body.length + 1) = rest := by
  induction body with
  | nil => simp
  | cons a l ih => simp

theorem snprintf_snprintf (buf : List Nat) (size : Nat) (src : List Nat) :
    snprintf (snprintf buf size src) size src = snprintf buf size src := by
  unfold snprintf
  by_cases h : size = 0
  · simp [h]
  · simp only [h, if_false]
    rw [drop_body]

theorem layer_mark_dirty_idem (layer : Option Layer) :
    layer_mark_dirty (layer_mark_dirty layer) = layer_mark_dirty layer := by
  cases layer <;> rfl

theorem safe_set_text_idem (w w' : World) (hl : w'.s_window_loaded = w.s_window_loaded)
    (layer : Option TextLayer) (text : TextRef) :
    safe_set_text w' (safe_set_text w layer text) text = safe_set_text w layer text := by
  unfold safe_set_text
  cases layer with
  | none => rfl
  | some l =>
    by_cases h : (w.s_window_loaded && text != .null) = true
    · simp [h, hl]
    · simp [h, hl]

/-- The only variables `inbox_received_callback` writes. -/
theorem inbox_received_callback_eq (msg : DictionaryIterator) (w : World) :
    ∃ b z t a p s f, inbox_received_callback msg w =
      { w with s_zone_buf := b, s_zone_layer := z, s_track_layer := t, s_artist_layer := a,
               s_is_playing := p, s_status_layer := s, s_is_fixed := f } := by
  refine ⟨(inbox_received_callback msg w).s_zone_buf, (inbox_received_callback msg w).s_zone_layer,
    (inbox_received_callback msg w).s_track_layer, (inbox_received_callback msg w).s_artist_layer,
    (inbox_received_callback msg w).s_is_playing, (inbox_received_callback msg w).s_status_layer,
    (inbox_received_callback msg w).s_is_fixed, ?_⟩
  unfold inbox_received_callback
  obtain ⟨m, l, _⟩ := w
  cases dict_find msg KEY_ZONE_NAME <;> cases dict_find msg KEY_TRACK <;>
    cases dict_find msg KEY_ARTIST <;> cases dict_find msg KEY_IS_PLAYING <;>
    cases dict_find msg KEY_IS_FIXED <;> cases l <;> simp

theorem cancel_opt_sublist (h : Option Nat) (l : List AppTimer) :
    (cancel_opt h l).Sublist l := by
  cases h with
  | none => exact List.Sublist.refl _
  | some h => exact List.filter_sublist _

theorem mem_cancel_opt {h : Option Nat} {l : List AppTimer} {tm : AppTimer}
    (hm : tm ∈ cancel_opt h l) : tm ∈ l ∧ h ≠ some tm.id := by
  cases h with
  | none => exact ⟨hm, by simp⟩
  | some h =>
    simp only [cancel_opt, List.mem_filter, bne_iff_ne, ne_eq] at hm
    refine ⟨hm.1, ?_⟩
    intro he
    exact hm.2 (Option.some.inj he).symm

theorem WF_init : WF World.init := by
  constructor
  · intro tm h; simp [World.init] at h
  · intro tm h; simp [World.init] at h
  · intro tm h; simp [World.init] at h
  · intro cb h hh; cases cb <;> simp [World.init, World.handle] at hh
  · simp [World.init]

/-- Removing timers and leaving counter and handle variables alone keeps the discipline. -/
theorem WF.of_sublist {w w' : World} (hw : WF w) (ht : w'.timers.Sublist w.timers)
    (hn : w'.next_timer = w.next_timer) (hh : ∀ cb, w'.handle cb = w.handle cb) : WF w' := by
  constructor
  · intro tm h; rw [hn]; exact hw.fresh tm (ht.subset h)
  · intro tm h; rw [hh]; exact hw.tracked tm (ht.subset h)
  · intro tm h cb hc; rw [hh] at hc; exact hw.exclusive tm (ht.subset h) cb hc
  · intro cb h hc; rw [hn]; rw [hh] at hc; exact hw.stored cb h hc
  · exact hw.distinct.sublist ht

/-- Cancel-then-register on the handle variable of `cb` keeps the discipline. -/
theorem WF.of_rearm {w w' : World} (hw : WF w) (cb : TimerCallback) (ms : Nat)
    (ht : w'.timers = cancel_opt (w.handle cb) w.timers ++ [⟨w.next_timer, w.now + ms, cb⟩])
    (hn : w'.next_timer = w.next_timer + 1)
    (hc : w'.handle cb = some w.next_timer)
    (hh : ∀ k, k ≠ cb → w'.handle k = w.handle k) : WF w' := by
  constructor
  · intro tm h
    rw [ht, List.mem_append] at h
    rw [hn]
    rcases h with h | h
    · have := hw.fresh tm (mem_cancel_opt h).1
      omega
    · simp at h; subst h; simp
  · intro tm h
    rw [ht, List.mem_append] at h
    rcases h with h | h
    · have h1 := mem_cancel_opt h
      have h2 := hw.tracked tm h1.1
      by_cases hk : tm.callback = cb
      · rw [hk] at h2; exact absurd h2 h1.2
      · rw [hh _ hk]; exact h2
    · simp at h; subst h; simpa using hc
  · intro tm h k hk
    rw [ht, List.mem_append] at h
    by_cases hkc : k = cb
    · subst hkc
      rw [hc] at hk
      have hid : w.next_timer = tm.id := Option.some.inj hk
      rcases h with h | h
      · have := hw.fresh tm (mem_cancel_opt h).1
        omega
      · simp at h; subst h; rfl
    · rw [hh k hkc] at hk
      rcases h with h | h
      · exact hw.exclusive tm (mem_cancel_opt h).1 k hk
      · simp at h; subst h
        have := hw.stored k _ hk
        simp at this
  · intro k h hk
    rw [hn]
    by_cases hkc : k = cb
    · subst hkc; rw [hc] at hk; cases hk; omega
    · rw [hh k hkc] at hk; have := hw.stored k h hk; omega
  · rw [ht, List.pairwise_append]
    refine ⟨hw.distinct.sublist (cancel_opt_sublist _ _), by simp, ?_⟩
    intro a ha b hb
    simp at hb; subst hb
    have := hw.fresh a (mem_cancel_opt ha).1
    simp; omega

/-- Delivering a timer and clearing its handle variable keeps the discipline. -/
theorem WF.of_fire {w w' : World} (hw : WF w) (tm : AppTimer) (hm : tm ∈ w.timers)
    (ht : w'.timers = w.timers.filter (fun x => x.id != tm.id))
    (hn : w'.next_timer = w.next_timer)
    (hc : w'.handle tm.callback = none)
    (hh : ∀ k, k ≠ tm.callback → w'.handle k = w.handle k) : WF w' := by
  constructor
  · intro x h; rw [ht] at h; rw [hn]; exact hw.fresh x (List.mem_filter.mp h).1
  · intro x h
    rw [ht] at h
    have hx := List.mem_filter.mp h
    have h2 := hw.tracked x hx.1
    by_cases hk : x.callback = tm.callback
    · have h3 := hw.tracked tm hm
      rw [hk, h3] at h2
      have : tm.id = x.id := Option.some.inj h2
      simp [this] at hx
    · rw [hh _ hk]; exact h2
  · intro x h k hk
    rw [ht] at h
    by_cases hkc : k = tm.callback
    · subst hkc; rw [hc] at hk; cases hk
    · rw [hh k hkc] at hk
      exact hw.exclusive x (List.mem_filter.mp h).1 k hk
  · intro k h hk
    rw [hn]
    by_cases hkc : k = tm.callback
    · subst hkc; rw [hc] at hk; cases hk
    · rw [hh k hkc] at hk; exact hw.stored k h hk
  · rw [ht]; exact hw.distinct.sublist (List.filter_sublist _)


theorem trigger_cooldown_eq (w : World) :
    trigger_cooldown w =
      { w with
        s_network_ready := false,
        timers := cancel_opt w.s_network_cooldown_timer w.timers ++
          [⟨w.next_timer, w.now + 250, .cooldown_cb⟩],
        next_timer := w.next_timer + 1,
        s_network_cooldown_timer := some w.next_timer } := by
  unfold trigger_cooldown
  cases h : w.s_network_cooldown_timer <;>
    simp [h, app_timer_register, app_timer_cancel, cancel_opt]

theorem reset_zone_timer_eq (w : World) :
    reset_zone_timer w =
      { w with
        timers := cancel_opt w.s_zone_revert_timer w.timers ++
          [⟨w.next_timer, w.now + 4000, .zone_revert_callback⟩],
        next_timer := w.next_timer + 1,
        s_zone_revert_timer := some w.next_timer } := by
  unfold reset_zone_timer
  cases h : w.s_zone_revert_timer <;>
    simp [h, app_timer_register, app_timer_cancel, cancel_opt]

theorem cancel_zone_timer_eq (w : World) :
    cancel_zone_timer w =
      { w with
        timers := cancel_opt w.s_zone_revert_timer w.timers,
        s_zone_revert_timer := none } := by
  unfold cancel_zone_timer
  cases h : w.s_zone_revert_timer with
  | none => cases w; simp_all [cancel_opt]
  | some x => simp [app_timer_cancel, cancel_opt]

theorem send_command_eq (cmd : String) (w : World) :
    send_command cmd w =
      if w.s_window_loaded = true ∧ w.s_network_ready = true then
        if w.outbox_result = .APP_MSG_OK then
          trigger_cooldown { w with outbox_begin_calls := w.outbox_begin_calls + 1,
                                    sent := w.sent ++ [(w.now, cmd)] }
        else { w with outbox_begin_calls := w.outbox_begin_calls + 1 }
      else w := by
  unfold send_command
  cases w.s_window_loaded <;> cases w.s_network_ready <;> simp

theorem update_ui_eq (w : World) :
    ∃ z, update_ui w =
      { w with update_ui_calls := w.update_ui_calls + 1, s_zone_layer := z } := by
  unfold update_ui
  cases hl : w.s_window_loaded
  · exact ⟨w.s_zone_layer, by simp [hl]⟩
  · simp only [hl]
    cases hz : safe_set_text _ w.s_zone_layer TextRef.zone_buf with
    | none =>
      refine ⟨w.s_zone_layer, ?_⟩
      simp [hz]
    | some l =>
      by_cases hm : w.s_mode = .MODE_ZONE
      · exact ⟨_, by simp [hz, hm]; rfl⟩
      · exact ⟨_, by simp [hz, hm]; rfl⟩

theorem WF_trigger_cooldown {w : World} (hw : WF w) : WF (trigger_cooldown w) := by
  rw [trigger_cooldown_eq]
  refine hw.of_rearm .cooldown_cb 250 rfl rfl rfl ?_
  intro k hk; cases k <;> simp_all [World.handle]

theorem WF_reset_zone_timer {w : World} (hw : WF w) : WF (reset_zone_timer w) := by
  rw [reset_zone_timer_eq]
  refine hw.of_rearm .zone_revert_callback 4000 rfl rfl rfl ?_
  intro k hk; cases k <;> simp_all [World.handle]

theorem WF_send_command (cmd : String) {w : World} (hw : WF w) : WF (send_command cmd w) := by
  rw [send_command_eq]
  split
  · split
    · apply WF_trigger_cooldown
      exact hw.of_sublist (List.Sublist.refl _) rfl (fun cb => by cases cb <;> rfl)
    · exact hw.of_sublist (List.Sublist.refl _) rfl (fun cb => by cases cb <;> rfl)
  · exact hw

theorem WF_update_ui {w : World} (hw : WF w) : WF (update_ui w) := by
  obtain ⟨z, hz⟩ := update_ui_eq w
  rw [hz]
  exact hw.of_sublist (List.Sublist.refl _) rfl (fun cb => by cases cb <;> rfl)


/-- Cancelling the timer of a handle variable and clearing the variable keeps the
discipline. -/
theorem WF.of_clear {w w' : World} (hw : WF w) (cb : TimerCallback)
    (ht : w'.timers = cancel_opt (w.handle cb) w.timers)
    (hn : w'.next_timer = w.next_timer)
    (hc : w'.handle cb = none)
    (hh : ∀ k, k ≠ cb → w'.handle k = w.handle k) : WF w' := by
  constructor
  · intro x h; rw [ht] at h; rw [hn]; exact hw.fresh x (mem_cancel_opt h).1
  · intro x h
    rw [ht] at h
    have hx := mem_cancel_opt h
    have h2 := hw.tracked x hx.1
    by_cases hk : x.callback = cb
    · rw [hk] at h2; exact absurd h2 hx.2
    · rw [hh _ hk]; exact h2
  · intro x h k hk
    rw [ht] at h
    by_cases hkc : k = cb
    · subst hkc; rw [hc] at hk; cases hk
    · rw [hh k hkc] at hk
      exact hw.exclusive x (mem_cancel_opt h).1 k hk
  · intro k h hk
    rw [hn]
    by_cases hkc : k = cb
    · subst hkc; rw [hc] at hk; cases hk
    · rw [hh k hkc] at hk; exact hw.stored k h hk
  · rw [ht]; exact hw.distinct.sublist (cancel_opt_sublist _ _)

theorem WF_cancel_zone_timer {w : World} (hw : WF w) : WF (cancel_zone_timer w) := by
  rw [cancel_zone_timer_eq]
  refine hw.of_clear .zone_revert_callback rfl rfl rfl ?_
  intro k hk; cases k <;> simp_all [World.handle]

theorem WF_up_click_handler {w : World} (hw : WF w) : WF (up_click_handler w) := by
  unfold up_click_handler
  split
  · exact WF_send_command _ hw
  · split
    · exact WF_send_command _ (WF_reset_zone_timer hw)
    · exact hw

theorem WF_down_click_handler {w : World} (hw : WF w) : WF (down_click_handler w) := by
  unfold down_click_handler
  split
  · exact WF_send_command _ hw
  · split
    · exact WF_send_command _ (WF_reset_zone_timer hw)
    · exact hw

theorem WF_select_click_handler {w : World} (hw : WF w) : WF (select_click_handler w) := by
  unfold select_click_handler
  apply WF_update_ui
  split
  · apply WF_reset_zone_timer
    exact hw.of_sublist (List.Sublist.refl _) rfl (fun cb => by cases cb <;> rfl)
  · split
    · exact (WF_send_command "status" (WF_cancel_zone_timer hw)).of_sublist
        (List.Sublist.refl _) rfl (fun cb => by cases cb <;> rfl)
    · exact hw

theorem select_long_click_handler_eq (w : World) :
    select_long_click_handler w =
      let w3 : World :=
        { w with
          vibes := w.vibes + 1,
          timers := cancel_opt w.s_playpause_delay_timer w.timers ++
            [⟨w.next_timer, w.now + 100, .send_playpause_cb⟩],
          next_timer := w.next_timer + 1,
          s_playpause_delay_timer := some w.next_timer }
      if w.s_mode = .MODE_ZONE then reset_zone_timer w3 else w3 := by
  unfold select_long_click_handler
  cases h : w.s_playpause_delay_timer <;>
    simp [h, app_timer_register, app_timer_cancel, cancel_opt]

theorem WF_select_long_click_handler {w : World} (hw : WF w) :
    WF (select_long_click_handler w) := by
  rw [select_long_click_handler_eq]
  have h3 : WF { w with
      vibes := w.vibes + 1,
      timers := cancel_opt w.s_playpause_delay_timer w.timers ++
        [⟨w.next_timer, w.now + 100, .send_playpause_cb⟩],
      next_timer := w.next_timer + 1,
      s_playpause_delay_timer := some w.next_timer } := by
    refine hw.of_rearm .send_playpause_cb 100 rfl rfl rfl ?_
    intro k hk; cases k <;> simp_all [World.handle]
  simp only
  split
  · exact WF_reset_zone_timer h3
  · exact h3

theorem find_id_some {l : List AppTimer} {id : Nat} {tm : AppTimer}
    (h : l.find? (fun x => x.id == id) = some tm) : tm ∈ l ∧ tm.id = id := by
  have h1 := List.find?_some h
  exact ⟨List.mem_of_find?_eq_some h, by simpa using h1⟩

theorem WF_fire_timer (id : Nat) {w : World} (hw : WF w) : WF (fire_timer id w) := by
  unfold fire_timer
  cases hf : w.timers.find? (fun tm => tm.id == id) with
  | none => exact hw
  | some tm =>
    obtain ⟨hm, hid⟩ := find_id_some hf
    simp only
    split
    · subst hid
      cases hcb : tm.callback with
      | cooldown_cb =>
        simp only [TimerCallback.run, cooldown_cb]
        refine hw.of_fire tm hm rfl rfl (by rw [hcb]; rfl) ?_
        intro k hk; rw [hcb] at hk; cases k <;> simp_all [World.handle]
      | send_playpause_cb =>
        simp only [TimerCallback.run, send_playpause_cb]
        apply WF_send_command
        refine hw.of_fire tm hm rfl rfl (by rw [hcb]; rfl) ?_
        intro k hk; rw [hcb] at hk; cases k <;> simp_all [World.handle]
      | zone_revert_callback =>
        have h1 : WF { w with timers := w.timers.filter (fun x => x.id != tm.id),
                              s_zone_revert_timer := none } := by
          refine hw.of_fire tm hm rfl rfl (by rw [hcb]; rfl) ?_
          intro k hk; rw [hcb] at hk; cases k <;> simp_all [World.handle]
        simp only [TimerCallback.run, zone_revert_callback]
        split
        · apply WF_update_ui
          exact h1.of_sublist (List.Sublist.refl _) rfl (fun cb => by cases cb <;> rfl)
        · exact h1
    · exact hw

theorem WF_inbox_received_callback (msg : DictionaryIterator) {w : World} (hw : WF w) :
    WF (inbox_received_callback msg w) := by
  obtain ⟨b, z, t, a, p, s, f, h⟩ := inbox_received_callback_eq msg w
  rw [h]
  exact hw.of_sublist (List.Sublist.refl _) rfl (fun cb => by cases cb <;> rfl)

theorem WF_window_unload {w : World} (hw : WF w) : WF (window_unload w) := by
  unfold window_unload
  have h1 : WF { w with s_window_loaded := false } :=
    hw.of_sublist (List.Sublist.refl _) rfl (fun cb => by cases cb <;> rfl)
  have h2 : ∀ {v : World}, WF v → WF (match v.s_network_cooldown_timer with
      | some h => app_timer_cancel h v | none => v) := by
    intro v hv
    split
    · exact hv.of_sublist (List.filter_sublist _) rfl (fun cb => by cases cb <;> rfl)
    · exact hv
  have h3 : ∀ {v : World}, WF v → WF (match v.s_playpause_delay_timer with
      | some h => app_timer_cancel h v | none => v) := by
    intro v hv
    split
    · exact hv.of_sublist (List.filter_sublist _) rfl (fun cb => by cases cb <;> rfl)
    · exact hv
  exact (WF_cancel_zone_timer (h3 (h2 h1))).of_sublist (List.Sublist.refl _) rfl
    (fun cb => by cases cb <;> rfl)

theorem WF_step {w : World} (hw : WF w) (e : Event) : WF (step w e) := by
  cases e with
  | tick ms => exact hw.of_sublist (List.Sublist.refl _) rfl (fun cb => by cases cb <;> rfl)
  | up => exact WF_up_click_handler hw
  | down => exact WF_down_click_handler hw
  | select => exact WF_select_click_handler hw
  | select_long => exact WF_select_long_click_handler hw
  | fire id => exact WF_fire_timer id hw
  | inbox msg => exact WF_inbox_received_callback msg hw
  | load => exact hw.of_sublist (List.Sublist.refl _) rfl (fun cb => by cases cb <;> rfl)
  | unload => exact WF_window_unload hw
  | outbox r => exact hw.of_sublist (List.Sublist.refl _) rfl (fun cb => by cases cb <;> rfl)

theorem WF_run {w : World} (hw : WF w) (es : List Event) : WF (run w es) := by
  induction es generalizing w with
  | nil => exact hw
  | cons e es ih => exact ih (WF_step hw e)

theorem Reachable.WF {w : World} (h : Reachable w) : WF w := by
  obtain ⟨es, rfl⟩ := h
  exact WF_run WF_init es

theorem pending_cancel_opt {w : World} (hw : WF w) (cb : TimerCallback) :
    (cancel_opt (w.handle cb) w.timers).filter (fun tm => tm.callback = cb) = [] := by
  rw [List.filter_eq_nil_iff]
  intro x hx
  have h1 := mem_cancel_opt hx
  have h2 := hw.tracked x h1.1
  intro hc
  have hc' : x.callback = cb := by simpa using hc
  rw [hc'] at h2
  exact h1.2 h2

/-! ## The throttle invariant -/

theorem Throttle_init : Throttle World.init := by
  constructor <;> simp [World.init]

/-- A step that adds no cooldown timer, keeps the flag and the log and does not turn
the clock back keeps the throttle's invariant. -/
theorem Throttle.of_frame {w w' : World} (hw : Throttle w)
    (ht : ∀ tm ∈ w'.timers, tm.callback = .cooldown_cb → tm ∈ w.timers)
    (hr : w'.s_network_ready = w.s_network_ready) (hs : w'.sent = w.sent)
    (hn : w.now ≤ w'.now) : Throttle w' := by
  constructor
  · intro tm hm hc
    rw [hr, hs]
    exact hw.cooling tm (ht tm hm hc) hc
  · intro h e he
    rw [hr] at h; rw [hs] at he
    have := hw.ready_gap h e he
    omega
  · intro e he
    rw [hs] at he
    have := hw.past e he
    omega
  · rw [hs]; exact hw.spaced

theorem Throttle_accept (cmd : String) {w : World} (hw : Throttle w)
    (hr : w.s_network_ready = true) :
    Throttle (trigger_cooldown { w with outbox_begin_calls := w.outbox_begin_calls + 1,
                                        sent := w.sent ++ [(w.now, cmd)] }) := by
  rw [trigger_cooldown_eq]
  constructor
  · intro tm hm hc
    refine ⟨rfl, ?_⟩
    simp only [List.mem_append, List.mem_singleton] at hm
    rcases hm with hm | hm
    · have := (hw.cooling tm (mem_cancel_opt hm).1 hc).1
      rw [hr] at this; cases this
    · subst hm
      intro e he
      simp only [List.mem_append, List.mem_singleton] at he
      rcases he with he | he
      · have := hw.past e he
        simp only; omega
      · subst he; simp
  · intro h; cases h
  · intro e he
    simp only [List.mem_append, List.mem_singleton] at he
    rcases he with he | he
    · exact hw.past e he
    · subst he; simp
  · simp only [List.pairwise_append]
    refine ⟨hw.spaced, by simp, ?_⟩
    intro a ha b hb
    simp only [List.mem_singleton] at hb
    subst hb
    exact hw.ready_gap hr a ha

theorem Throttle_send_command (cmd : String) {w : World} (hw : Throttle w) :
    Throttle (send_command cmd w) := by
  rw [send_command_eq]
  split
  · rename_i h
    split
    · exact Throttle_accept cmd hw h.2
    · exact hw.of_frame (fun _ h _ => h) rfl rfl (Nat.le_refl _)
  · exact hw

theorem Throttle_reset_zone_timer {w : World} (hw : Throttle w) :
    Throttle (reset_zone_timer w) := by
  rw [reset_zone_timer_eq]
  refine hw.of_frame ?_ rfl rfl (Nat.le_refl _)
  intro tm hm hc
  simp only [List.mem_append, List.mem_singleton] at hm
  rcases hm with hm | hm
  · exact (mem_cancel_opt hm).1
  · subst hm; cases hc

theorem Throttle_cancel_zone_timer {w : World} (hw : Throttle w) :
    Throttle (cancel_zone_timer w) := by
  rw [cancel_zone_timer_eq]
  exact hw.of_frame (fun tm hm _ => (mem_cancel_opt hm).1) rfl rfl (Nat.le_refl _)

theorem Throttle_update_ui {w : World} (hw : Throttle w) : Throttle (update_ui w) := by
  obtain ⟨z, hz⟩ := update_ui_eq w
  rw [hz]
  exact hw.of_frame (fun _ h _ => h) rfl rfl (Nat.le_refl _)

theorem Throttle_select_click_handler {w : World} (hw : Throttle w) :
    Throttle (select_click_handler w) := by
  unfold select_click_handler
  apply Throttle_update_ui
  split
  · apply Throttle_reset_zone_timer
    exact hw.of_frame (fun _ h _ => h) rfl rfl (Nat.le_refl _)
  · split
    · exact (Throttle_send_command "status" (Throttle_cancel_zone_timer hw)).of_frame
        (fun _ h _ => h) rfl rfl (Nat.le_refl _)
    · exact hw

theorem Throttle_select_long_click_handler {w : World} (hw : Throttle w) :
    Throttle (select_long_click_handler w) := by
  rw [select_long_click_handler_eq]
  have h3 : Throttle { w with
      vibes := w.vibes + 1,
      timers := cancel_opt w.s_playpause_delay_timer w.timers ++
        [⟨w.next_timer, w.now + 100, .send_playpause_cb⟩],
      next_timer := w.next_timer + 1,
      s_playpause_delay_timer := some w.next_timer } := by
    refine hw.of_frame ?_ rfl rfl (Nat.le_refl _)
    intro tm hm hc
    simp only [List.mem_append, List.mem_singleton] at hm
    rcases hm with hm | hm
    · exact (mem_cancel_opt hm).1
    · subst hm; cases hc
  simp only
  split
  · exact Throttle_reset_zone_timer h3
  · exact h3

theorem Throttle_fire_timer (id : Nat) {w : World} (hwf : WF w) (hw : Throttle w) :
    Throttle (fire_timer id w) := by
  unfold fire_timer
  cases hf : w.timers.find? (fun tm => tm.id == id) with
  | none => exact hw
  | some tm =>
    obtain ⟨hm, hid⟩ := find_id_some hf
    simp only
    split
    · rename_i hdue
      subst hid
      have hfr : Throttle { w with timers := w.timers.filter (fun x => x.id != tm.id) } :=
        hw.of_frame (fun x hx _ => (List.mem_filter.mp hx).1) rfl rfl (Nat.le_refl _)
      cases hcb : tm.callback with
      | cooldown_cb =>
        simp only [TimerCallback.run, cooldown_cb]
        constructor
        · intro x hx hc
          have hx' := List.mem_filter.mp hx
          have h1 := hwf.tracked x hx'.1
          have h2 := hwf.tracked tm hm
          rw [hc] at h1; rw [hcb] at h2
          rw [h1] at h2
          have : x.id = tm.id := Option.some.inj h2
          simp [this] at hx'
        · intro _ e he
          have := (hw.cooling tm hm hcb).2 e he
          simp only; omega
        · exact hw.past
        · exact hw.spaced
      | send_playpause_cb =>
        simp only [TimerCallback.run, send_playpause_cb]
        apply Throttle_send_command
        exact hfr.of_frame (fun _ h _ => h) rfl rfl (Nat.le_refl _)
      | zone_revert_callback =>
        simp only [TimerCallback.run, zone_revert_callback]
        split
        · apply Throttle_update_ui
          exact hfr.of_frame (fun _ h _ => h) rfl rfl (Nat.le_refl _)
        · exact hfr.of_frame (fun _ h _ => h) rfl rfl (Nat.le_refl _)
    · exact hw

theorem Throttle_window_unload {w : World} (hw : Throttle w) : Throttle (window_unload w) := by
  unfold window_unload
  have h1 : Throttle { w with s_window_loaded := false } :=
    hw.of_frame (fun _ h _ => h) rfl rfl (Nat.le_refl _)
  have h2 : ∀ {v : World}, Throttle v → Throttle (match v.s_network_cooldown_timer with
      | some h => app_timer_cancel h v | none => v) := by
    intro v hv
    split
    · exact hv.of_frame (fun x hx _ => (List.mem_filter.mp hx).1) rfl rfl (Nat.le_refl _)
    · exact hv
  have h3 : ∀ {v : World}, Throttle v → Throttle (match v.s_playpause_delay_timer with
      | some h => app_timer_cancel h v | none => v) := by
    intro v hv
    split
    · exact hv.of_frame (fun x hx _ => (List.mem_filter.mp hx).1) rfl rfl (Nat.le_refl _)
    · exact hv
  exact (Throttle_cancel_zone_timer (h3 (h2 h1))).of_frame (fun _ h _ => h) rfl rfl
    (Nat.le_refl _)

theorem Throttle_step {w : World} (hwf : WF w) (hw : Throttle w) (e : Event) :
    Throttle (step w e) := by
  cases e with
  | tick ms => exact hw.of_frame (fun _ h _ => h) rfl rfl (Nat.le_add_right _ _)
  | up =>
    simp only [step, up_click_handler]
    split
    · exact Throttle_send_command _ hw
    · split
      · exact Throttle_send_command _ (Throttle_reset_zone_timer hw)
      · exact hw
  | down =>
    simp only [step, down_click_handler]
    split
    · exact Throttle_send_command _ hw
    · split
      · exact Throttle_send_command _ (Throttle_reset_zone_timer hw)
      · exact hw
  | select => exact Throttle_select_click_handler hw
  | select_long => exact Throttle_select_long_click_handler hw
  | fire id => exact Throttle_fire_timer id hwf hw
  | inbox msg =>
    obtain ⟨b, z, t, a, p, s, f, h⟩ := inbox_received_callback_eq msg w
    simp only [step, h]
    exact hw.of_frame (fun _ h _ => h) rfl rfl (Nat.le_refl _)
  | load => exact hw.of_frame (fun _ h _ => h) rfl rfl (Nat.le_refl _)
  | unload => exact Throttle_window_unload hw
  | outbox r => exact hw.of_frame (fun _ h _ => h) rfl rfl (Nat.le_refl _)

theorem Throttle_run {w : World} (hwf : WF w) (hw : Throttle w) (es : List Event) :
    Throttle (run w es) := by
  induction es generalizing w with
  | nil => exact hw
  | cons e es ih => exact ih (WF_step hwf e) (Throttle_step hwf hw e)

/-! ## Zone timer lemmas -/

theorem filter_cancel_opt (h : Option Nat) (l : List AppTimer) (p : AppTimer → Bool) :
    (cancel_opt h l).filter p = cancel_opt h (l.filter p) := by
  cases h with
  | none => rfl
  | some h => simp only [cancel_opt, List.filter_filter, Bool.and_comm]

theorem cancel_opt_singleton (h : Option Nat) (tm : AppTimer) (hne : h ≠ some tm.id) :
    cancel_opt h [tm] = [tm] := by
  cases h with
  | none => rfl
  | some h =>
    have : tm.id ≠ h := fun e => hne (by rw [e])
    simp [cancel_opt, this]

theorem find_id_of_mem {l : List AppTimer} (hd : l.Pairwise (fun a b => a.id ≠ b.id))
    {tm : AppTimer} (hm : tm ∈ l) : l.find? (fun x => x.id == tm.id) = some tm := by
  induction l with
  | nil => cases hm
  | cons a l ih =>
    rw [List.pairwise_cons] at hd
    rcases List.mem_cons.mp hm with h | h
    · subst h; simp
    · have hne : a.id ≠ tm.id := hd.1 tm h
      rw [List.find?_cons_of_neg _ (by simpa using hne)]
      exact ih hd.2 h

theorem send_command_frame (cmd : String) (w : World) :
    (send_command cmd w).s_mode = w.s_mode ∧
    (send_command cmd w).s_zone_revert_timer = w.s_zone_revert_timer ∧
    (send_command cmd w).update_ui_calls = w.update_ui_calls ∧
    (send_command cmd w).now = w.now ∧
    w.next_timer ≤ (send_command cmd w).next_timer ∧
    (∀ x ∈ (send_command cmd w).timers, x ∈ w.timers ∨
      (x.id = w.next_timer ∧ x.callback = .cooldown_cb)) := by
  rw [send_command_eq]
  split
  · split
    · rw [trigger_cooldown_eq]
      refine ⟨rfl, rfl, rfl, rfl, Nat.le_succ _, ?_⟩
      intro x hx
      simp only [List.mem_append, List.mem_singleton] at hx
      rcases hx with hx | hx
      · exact Or.inl (mem_cancel_opt hx).1
      · subst hx; exact Or.inr ⟨rfl, rfl⟩
    · exact ⟨rfl, rfl, rfl, rfl, Nat.le_refl _, fun x hx => Or.inl hx⟩
  · exact ⟨rfl, rfl, rfl, rfl, Nat.le_refl _, fun x hx => Or.inl hx⟩

theorem send_command_sent (cmd : String) (w : World) (hl : w.s_window_loaded = true)
    (hr : w.s_network_ready = true) (hok : w.outbox_result = .APP_MSG_OK) :
    (send_command cmd w).sent = w.sent ++ [(w.now, cmd)] := by
  rw [send_command_eq, trigger_cooldown_eq]
  simp [hl, hr, hok]

/-- After `reset_zone_timer` and a `send_command`, whether dropped or not, exactly the
new Zone timer is pending, and the timer the old handle referred to is gone. -/
theorem send_after_reset (cmd : String) (w : World) (hwf : WF w) :
    (send_command cmd (reset_zone_timer w)).s_mode = w.s_mode ∧
    (send_command cmd (reset_zone_timer w)).pending .zone_revert_callback =
      [⟨w.next_timer, w.now + 4000, .zone_revert_callback⟩] ∧
    (send_command cmd (reset_zone_timer w)).s_zone_revert_timer = some w.next_timer ∧
    (∀ h, w.s_zone_revert_timer = some h →
      ∀ tm ∈ (send_command cmd (reset_zone_timer w)).timers, tm.id ≠ h) := by
  have hz := pending_cancel_opt hwf .zone_revert_callback
  simp only [World.handle] at hz
  have hold : ∀ h, w.s_zone_revert_timer = some h →
      ∀ tm ∈ (reset_zone_timer w).timers, tm.id ≠ h := by
    intro h hh tm hm
    rw [reset_zone_timer_eq] at hm
    simp only [List.mem_append, List.mem_singleton] at hm
    rcases hm with hm | hm
    · have := (mem_cancel_opt hm).2
      rw [hh] at this
      intro he; exact this (by rw [he])
    · subst hm
      have := hwf.stored .zone_revert_callback h hh
      simp only; omega
  have hpend : (reset_zone_timer w).pending .zone_revert_callback =
      [⟨w.next_timer, w.now + 4000, .zone_revert_callback⟩] := by
    rw [reset_zone_timer_eq]
    simp only [World.pending, List.filter_append, hz]
    simp
  obtain ⟨f1, f2, -, -, -, f6⟩ := send_command_frame cmd (reset_zone_timer w)
  refine ⟨?_, ?_, ?_, ?_⟩
  · rw [f1, reset_zone_timer_eq]
  · rw [send_command_eq]
    split
    · split
      · rw [trigger_cooldown_eq]
        simp only [World.pending, List.filter_append, filter_cancel_opt]
        have hp := hpend
        simp only [World.pending] at hp
        rw [hp]
        rw [cancel_opt_singleton]
        · simp [reset_zone_timer_eq]
        · intro he
          have h1 : (reset_zone_timer w).s_network_cooldown_timer =
              w.s_network_cooldown_timer := by rw [reset_zone_timer_eq]
          rw [h1] at he
          have := hwf.stored .cooldown_cb _ he
          simp at this
      · exact hpend
    · exact hpend
  · rw [f2, reset_zone_timer_eq]
  · intro h hh tm hm
    rcases f6 tm hm with hm | hm
    · exact hold h hh tm hm
    · have := hwf.stored .zone_revert_callback h hh
      have h2 : (reset_zone_timer w).next_timer = w.next_timer + 1 := by
        rw [reset_zone_timer_eq]
      rw [hm.1, h2]; omega


theorem Armed.of_timers {id : Nat} {v v' : World} (h : Armed id v)
    (ht : ∀ x ∈ v'.timers, x ∈ v.timers ∨ v.next_timer ≤ x.id)
    (hm : v'.s_mode = v.s_mode) (hn : v.next_timer ≤ v'.next_timer) : Armed id v' := by
  refine ⟨Nat.lt_of_lt_of_le h.1 hn, ?_⟩
  intro x hx hid
  rcases ht x hx with hx' | hx'
  · rw [hm]; exact h.2 x hx' hid
  · have := h.1
    omega

theorem window_unload_frame (w : World) :
    (window_unload w).s_mode = w.s_mode ∧
    (window_unload w).next_timer = w.next_timer ∧
    ∀ x ∈ (window_unload w).timers, x ∈ w.timers := by
  unfold window_unload
  simp only [cancel_zone_timer_eq]
  cases h1 : w.s_network_cooldown_timer <;> cases h2 : w.s_playpause_delay_timer <;>
    cases h3 : w.s_zone_revert_timer <;>
    simp [app_timer_cancel, cancel_opt, h1, h2, h3] <;>
    intros <;> simp_all [List.mem_filter]

theorem Armed_send_command (cmd : String) {id : Nat} {v : World} (h : Armed id v) :
    Armed id (send_command cmd v) := by
  obtain ⟨f1, -, -, -, f5, f6⟩ := send_command_frame cmd v
  refine h.of_timers ?_ f1 f5
  intro x hx
  rcases f6 x hx with hx' | hx'
  · exact Or.inl hx'
  · exact Or.inr (by rw [hx'.1])

theorem Armed_fire_timer (i : Nat) {id : Nat} {v : World} (hwf : WF v) (h : Armed id v) :
    Armed id (fire_timer i v) := by
  unfold fire_timer
  cases hf : v.timers.find? (fun tm => tm.id == i) with
  | none => exact h
  | some tm =>
    obtain ⟨hm, hid⟩ := find_id_some hf
    simp only
    split
    · subst hid
      have h1 : Armed id { v with timers := v.timers.filter (fun x => x.id != tm.id) } :=
        h.of_timers (fun x hx => Or.inl (List.mem_filter.mp hx).1) rfl (Nat.le_refl _)
      cases hcb : tm.callback with
      | cooldown_cb =>
        simp only [TimerCallback.run, cooldown_cb]
        exact h1.of_timers (fun x hx => Or.inl hx) rfl (Nat.le_refl _)
      | send_playpause_cb =>
        simp only [TimerCallback.run, send_playpause_cb]
        apply Armed_send_command
        exact h1.of_timers (fun x hx => Or.inl hx) rfl (Nat.le_refl _)
      | zone_revert_callback =>
        have hnone : ∀ x ∈ v.timers.filter (fun x => x.id != tm.id), x.id ≠ id := by
          intro x hx hxid
          have hx' := List.mem_filter.mp hx
          have hz := (h.2 x hx'.1 hxid).1
          have t1 := hwf.tracked x hx'.1
          have t2 := hwf.tracked tm hm
          rw [hz] at t1; rw [hcb, t1] at t2
          have : x.id = tm.id := Option.some.inj t2
          simp [this] at hx'
        simp only [TimerCallback.run, zone_revert_callback]
        split
        · obtain ⟨z, hz⟩ := update_ui_eq
            { v with timers := v.timers.filter (fun x => x.id != tm.id),
                     s_zone_revert_timer := none, s_mode := .MODE_TRACK }
          rw [hz]
          exact ⟨h.1, fun x hx hxid => absurd hxid (hnone x hx)⟩
        · exact ⟨h.1, fun x hx hxid => absurd hxid (hnone x hx)⟩
    · exact h

theorem Armed_step {id : Nat} {v : World} (hwf : WF v) (h : Armed id v) (e : Event)
    (he : e.is_button = false) : Armed id (step v e) := by
  cases e with
  | tick ms => exact h.of_timers (fun x hx => Or.inl hx) rfl (Nat.le_refl _)
  | up => cases he
  | down => cases he
  | select => cases he
  | select_long => cases he
  | fire i => exact Armed_fire_timer i hwf h
  | inbox msg =>
    obtain ⟨b, z, t, a, p, s, f, hh⟩ := inbox_received_callback_eq msg v
    simp only [step, hh]
    exact h.of_timers (fun x hx => Or.inl hx) rfl (Nat.le_refl _)
  | load => exact h.of_timers (fun x hx => Or.inl hx) rfl (Nat.le_refl _)
  | unload =>
    obtain ⟨f1, f2, f3⟩ := window_unload_frame v
    exact h.of_timers (fun x hx => Or.inl (f3 x hx)) f1 (Nat.le_of_eq f2.symm)
  | outbox r => exact h.of_timers (fun x hx => Or.inl hx) rfl (Nat.le_refl _)

theorem Armed_run {id : Nat} {v : World} (hwf : WF v) (h : Armed id v) (es : List Event)
    (he : ∀ e ∈ es, e.is_button = false) : Armed id (run v es) := by
  induction es generalizing v with
  | nil => exact h
  | cons e es ih =>
    exact ih (WF_step hwf e) (Armed_step hwf h e (he e (List.mem_cons_self _ _)))
      (fun e' he' => he e' (List.mem_cons_of_mem _ he'))

/-- Select-Short in Track mode, written out. -/
theorem select_track_eq (w : World) (hm : w.s_mode = .MODE_TRACK) :
    ∃ z, select_click_handler w =
      { w with
        s_mode := .MODE_ZONE,
        timers := cancel_opt w.s_zone_revert_timer w.timers ++
          [⟨w.next_timer, w.now + 4000, .zone_revert_callback⟩],
        next_timer := w.next_timer + 1,
        s_zone_revert_timer := some w.next_timer,
        update_ui_calls := w.update_ui_calls + 1,
        s_zone_layer := z } := by
  obtain ⟨z, hz⟩ := update_ui_eq (reset_zone_timer { w with s_mode := .MODE_ZONE })
  refine ⟨z, ?_⟩
  simp only [select_click_handler, hm, if_true]
  rw [hz, reset_zone_timer_eq]

/-- Delivery of a pending, due Zone revert timer while the mode is Zone. -/
theorem fire_zone_timer {v : World} (hwf : WF v) {tm : AppTimer} (hm : tm ∈ v.timers)
    (hcb : tm.callback = .zone_revert_callback) (hdue : tm.deadline ≤ v.now)
    (hz : v.s_mode = .MODE_ZONE) :
    (fire_timer tm.id v).s_mode = .MODE_TRACK ∧
    (fire_timer tm.id v).pending .zone_revert_callback = [] ∧
    (fire_timer tm.id v).s_zone_revert_timer = none ∧
    (fire_timer tm.id v).update_ui_calls = v.update_ui_calls + 1 := by
  obtain ⟨z, hu⟩ := update_ui_eq
    { v with timers := v.timers.filter (fun x => x.id != tm.id),
             s_zone_revert_timer := none, s_mode := .MODE_TRACK }
  have he : fire_timer tm.id v = update_ui
      { v with timers := v.timers.filter (fun x => x.id != tm.id),
               s_zone_revert_timer := none, s_mode := .MODE_TRACK } := by
    simp [fire_timer, find_id_of_mem hwf.distinct hm, hdue, hcb, TimerCallback.run,
      zone_revert_callback, hz]
  rw [he, hu]
  refine ⟨rfl, ?_, rfl, rfl⟩
  simp only [World.pending]
  rw [List.filter_eq_nil_iff]
  intro x hx hc
  have hc' : x.callback = .zone_revert_callback := by simpa using hc
  have hx' := List.mem_filter.mp hx
  have t1 := hwf.tracked x hx'.1
  have t2 := hwf.tracked tm hm
  rw [hc'] at t1; rw [hcb, t1] at t2
  have : x.id = tm.id := Option.some.inj t2
  simp [this] at hx'

/-! ## Recovery of the throttle when the window stays loaded -/

theorem eq_of_id_eq {l : List AppTimer} (hd : l.Pairwise (fun a b => a.id ≠ b.id))
    {a b : AppTimer} (ha : a ∈ l) (hb : b ∈ l) (h : a.id = b.id) : a = b := by
  have h1 := find_id_of_mem hd ha
  have h2 := find_id_of_mem hd hb
  rw [h] at h1
  rw [h1] at h2
  exact Option.some.inj h2

/-- Cancelling through the handle variable of one callback leaves the timers of the
other callbacks pending. -/
theorem mem_cancel_opt_of_ne {w : World} (hw : WF w) (cb : TimerCallback) {tm : AppTimer}
    (hm : tm ∈ w.timers) (hne : tm.callback ≠ cb) :
    tm ∈ cancel_opt (w.handle cb) w.timers := by
  cases hh : w.handle cb with
  | none => exact hm
  | some h =>
    simp only [cancel_opt, List.mem_filter, bne_iff_ne, ne_eq]
    refine ⟨hm, ?_⟩
    intro he
    rw [← he] at hh
    exact hne (hw.exclusive tm hm cb hh).symm

theorem Recovering.keep {v v' : World} (h : Recovering v)
    (ht : ∀ tm ∈ v.timers, tm.callback = .cooldown_cb → tm ∈ v'.timers)
    (hr : v'.s_network_ready = v.s_network_ready) (hs : v'.sent = v.sent) :
    Recovering v' := by
  intro hf
  rw [hr] at hf
  obtain ⟨tm, hm, hc, e, he, hd⟩ := h hf
  exact ⟨tm, ht tm hm hc, hc, e, by rw [hs]; exact he, hd⟩

theorem Recovering_send_command (cmd : String) {v : World} (h : Recovering v) :
    Recovering (send_command cmd v) := by
  rw [send_command_eq]
  split
  · split
    · rw [trigger_cooldown_eq]
      intro _
      exact ⟨⟨v.next_timer, v.now + 250, .cooldown_cb⟩, by simp, rfl, (v.now, cmd),
        by simp, rfl⟩
    · exact h.keep (fun _ hm _ => hm) rfl rfl
  · exact h

theorem Recovering_reset_zone_timer {v : World} (hwf : WF v) (h : Recovering v) :
    Recovering (reset_zone_timer v) := by
  rw [reset_zone_timer_eq]
  refine h.keep ?_ rfl rfl
  intro tm hm hc
  refine List.mem_append_left _ ?_
  exact mem_cancel_opt_of_ne hwf .zone_revert_callback hm (by rw [hc]; simp)

theorem Recovering_cancel_zone_timer {v : World} (hwf : WF v) (h : Recovering v) :
    Recovering (cancel_zone_timer v) := by
  rw [cancel_zone_timer_eq]
  refine h.keep ?_ rfl rfl
  intro tm hm hc
  exact mem_cancel_opt_of_ne hwf .zone_revert_callback hm (by rw [hc]; simp)

theorem Recovering_update_ui {v : World} (h : Recovering v) : Recovering (update_ui v) := by
  obtain ⟨z, hz⟩ := update_ui_eq v
  rw [hz]
  exact h.keep (fun _ hm _ => hm) rfl rfl

theorem Recovering_select_click_handler {v : World} (hwf : WF v) (h : Recovering v) :
    Recovering (select_click_handler v) := by
  unfold select_click_handler
  apply Recovering_update_ui
  split
  · apply Recovering_reset_zone_timer
    · exact hwf.of_sublist (List.Sublist.refl _) rfl (fun cb => by cases cb <;> rfl)
    · exact h.keep (fun _ hm _ => hm) rfl rfl
  · split
    · exact (Recovering_send_command "status"
        (Recovering_cancel_zone_timer hwf h)).keep (fun _ hm _ => hm) rfl rfl
    · exact h

theorem WF_playpause_rearm {w : World} (hw : WF w) :
    WF { w with
      vibes := w.vibes + 1,
      timers := cancel_opt w.s_playpause_delay_timer w.timers ++
        [⟨w.next_timer, w.now + 100, .send_playpause_cb⟩],
      next_timer := w.next_timer + 1,
      s_playpause_delay_timer := some w.next_timer } := by
  refine hw.of_rearm .send_playpause_cb 100 rfl rfl rfl ?_
  intro k hk; cases k <;> simp_all [World.handle]

theorem Recovering_select_long_click_handler {v : World} (hwf : WF v) (h : Recovering v) :
    Recovering (select_long_click_handler v) := by
  rw [select_long_click_handler_eq]
  have h3 : Recovering { v with
      vibes := v.vibes + 1,
      timers := cancel_opt v.s_playpause_delay_timer v.timers ++
        [⟨v.next_timer, v.now + 100, .send_playpause_cb⟩],
      next_timer := v.next_timer + 1,
      s_playpause_delay_timer := some v.next_timer } := by
    refine h.keep ?_ rfl rfl
    intro tm hm hc
    refine List.mem_append_left _ ?_
    exact mem_cancel_opt_of_ne hwf .send_playpause_cb hm (by rw [hc]; simp)
  simp only
  split
  · exact Recovering_reset_zone_timer (WF_playpause_rearm hwf) h3
  · exact h3

theorem Recovering_fire_timer (i : Nat) {v : World} (hwf : WF v) (h : Recovering v) :
    Recovering (fire_timer i v) := by
  unfold fire_timer
  cases hf : v.timers.find? (fun tm => tm.id == i) with
  | none => exact h
  | some tm =>
    obtain ⟨hm, hid⟩ := find_id_some hf
    simp only
    split
    · subst hid
      cases hcb : tm.callback with
      | cooldown_cb =>
        simp only [TimerCallback.run, cooldown_cb]
        intro hf'
        cases hf'
      | send_playpause_cb =>
        simp only [TimerCallback.run, send_playpause_cb]
        apply Recovering_send_command
        refine h.keep ?_ rfl rfl
        intro x hx hc
        refine List.mem_filter.mpr ⟨hx, ?_⟩
        have : x.id ≠ tm.id := by
          intro he
          have := eq_of_id_eq hwf.distinct hx hm he
          rw [this, hcb] at hc
          cases hc
        simpa using this
      | zone_revert_callback =>
        have h1 : Recovering { v with timers := v.timers.filter (fun x => x.id != tm.id),
                                      s_zone_revert_timer := none } := by
          refine h.keep ?_ rfl rfl
          intro x hx hc
          refine List.mem_filter.mpr ⟨hx, ?_⟩
          have : x.id ≠ tm.id := by
            intro he
            have := eq_of_id_eq hwf.distinct hx hm he
            rw [this, hcb] at hc
            cases hc
          simpa using this
        simp only [TimerCallback.run, zone_revert_callback]
        split
        · apply Recovering_update_ui
          exact h1.keep (fun _ hm _ => hm) rfl rfl
        · exact h1
    · exact h

theorem Recovering_step {v : World} (hwf : WF v) (h : Recovering v) (e : Event)
    (he : e ≠ .unload) : Recovering (step v e) := by
  cases e with
  | tick ms => exact h.keep (fun _ hm _ => hm) rfl rfl
  | up =>
    simp only [step, up_click_handler]
    split
    · exact Recovering_send_command _ h
    · split
      · exact Recovering_send_command _ (Recovering_reset_zone_timer hwf h)
      · exact h
  | down =>
    simp only [step, down_click_handler]
    split
    · exact Recovering_send_command _ h
    · split
      · exact Recovering_send_command _ (Recovering_reset_zone_timer hwf h)
      · exact h
  | select => exact Recovering_select_click_handler hwf h
  | select_long => exact Recovering_select_long_click_handler hwf h
  | fire i => exact Recovering_fire_timer i hwf h
  | inbox msg =>
    obtain ⟨b, z, t, a, p, s, f, hh⟩ := inbox_received_callback_eq msg v
    simp only [step, hh]
    exact h.keep (fun _ hm _ => hm) rfl rfl
  | load => exact h.keep (fun _ hm _ => hm) rfl rfl
  | unload => exact absurd rfl he
  | outbox r => exact h.keep (fun _ hm _ => hm) rfl rfl

theorem Recovering_run {v : World} (hwf : WF v) (h : Recovering v) (es : List Event)
    (he : ∀ e ∈ es, e ≠ .unload) : Recovering (run v es) := by
  induction es generalizing v with
  | nil => exact h
  | cons e es ih =>
    exact ih (WF_step hwf e) (Recovering_step hwf h e (he e (List.mem_cons_self _ _)))
      (fun e' he' => he e' (List.mem_cons_of_mem _ he'))

/-- Throttle recovery while the window is never unloaded: after any events from the
initial state with no window unload among them, once every send lies 250 ms back and
the due cooldown timer has been delivered, a `send_command` with the window loaded
and the outbox accepting hands its command to the transport. -/
theorem recovery_without_unload (es : List Event) (hes : ∀ e ∈ es, e ≠ .unload)
    (hl : (run World.init es).s_window_loaded = true)
    (hok : (run World.init es).outbox_result = .APP_MSG_OK)
    (hgap : ∀ e ∈ (run World.init es).sent, e.1 + 250 ≤ (run World.init es).now)
    (hdel : ∀ tm ∈ (run World.init es).timers,
      tm.callback = .cooldown_cb → (run World.init es).now < tm.deadline)
    (cmd : String) :
    (send_command cmd (run World.init es)).sent =
      (run World.init es).sent ++ [((run World.init es).now, cmd)] := by
  have hR : Recovering (run World.init es) :=
    Recovering_run WF_init (by intro h; cases h) es hes
  have hr : (run World.init es).s_network_ready = true := by
    cases h : (run World.init es).s_network_ready with
    | true => rfl
    | false =>
      obtain ⟨tm, hm, hc, e, he, hd⟩ := hR h
      have h1 := hgap e he
      have h2 := hdel tm hm hc
      omega
  exact send_command_sent cmd _ hl hr hok

/-- The recovery lemma at a concrete run: the cooldown timer is delivered at 250 ms
and the next command goes out. -/
theorem recovery_without_unload_example :
    (send_command "next" (run World.init [.load, .up, .tick 250, .fire 1])).sent =
      [(0, "previous"), (250, "next")] :=
  recovery_without_unload [.load, .up, .tick 250, .fire 1] (by decide) (by decide)
    (by decide) (by decide) (by decide) "next"

/-! ## The play/pause debounce -/

/-- One Select-Long press: the mode stays, nothing reaches the transport, the timer
the debounce handle referred to is gone and exactly one debounce timer is pending,
due 100 ms after the press. -/
theorem select_long_effect (v : World) (hwf : WF v) :
    (select_long_click_handler v).s_mode = v.s_mode ∧
    (select_long_click_handler v).sent = v.sent ∧
    (select_long_click_handler v).outbox_begin_calls = v.outbox_begin_calls ∧
    (select_long_click_handler v).now = v.now ∧
    (select_long_click_handler v).s_playpause_delay_timer = some v.next_timer ∧
    (select_long_click_handler v).pending .send_playpause_cb =
      [⟨v.next_timer, v.now + 100, .send_playpause_cb⟩] ∧
    (∀ h, v.s_playpause_delay_timer = some h →
      ∀ tm ∈ (select_long_click_handler v).timers, tm.id ≠ h) := by
  have hp := pending_cancel_opt hwf .send_playpause_cb
  simp only [World.handle] at hp
  have hold : ∀ h, v.s_playpause_delay_timer = some h →
      ∀ tm ∈ cancel_opt v.s_playpause_delay_timer v.timers ++
        [(⟨v.next_timer, v.now + 100, .send_playpause_cb⟩ : AppTimer)], tm.id ≠ h := by
    intro h hh tm hm
    simp only [List.mem_append, List.mem_singleton] at hm
    rcases hm with hm | hm
    · have := (mem_cancel_opt hm).2
      rw [hh] at this
      intro he; exact this (by rw [he])
    · subst hm
      have := hwf.stored .send_playpause_cb h hh
      simp only; omega
  rw [select_long_click_handler_eq]
  simp only
  split
  · rw [reset_zone_timer_eq]
    refine ⟨rfl, rfl, rfl, rfl, rfl, ?_, ?_⟩
    · simp only [World.pending, List.filter_append, filter_cancel_opt, hp]
      have hf1 : List.filter (fun tm : AppTimer => decide (tm.callback = .send_playpause_cb))
          [⟨v.next_timer, v.now + 100, .send_playpause_cb⟩] =
          [⟨v.next_timer, v.now + 100, .send_playpause_cb⟩] := by simp
      have hf2 : List.filter (fun tm : AppTimer => decide (tm.callback = .send_playpause_cb))
          [⟨v.next_timer + 1, v.now + 4000, .zone_revert_callback⟩] = [] := by simp
      rw [List.nil_append, hf1, hf2, cancel_opt_singleton]
      · simp
      · intro he
        have := hwf.stored .zone_revert_callback _ he
        simp at this
    · intro h hh tm hm
      simp only [List.mem_append, List.mem_singleton] at hm
      rcases hm with hm | hm
      · exact hold h hh tm (cancel_opt_sublist _ _ |>.subset hm)
      · subst hm
        have := hwf.stored .send_playpause_cb h hh
        simp only; omega
  · refine ⟨rfl, rfl, rfl, rfl, rfl, ?_, hold⟩
    simp only [World.pending, List.filter_append, hp]
    simp

/-- Delivery of the one pending, due debounce timer is the `playpause` request, and
leaves no debounce timer pending. -/
theorem fire_playpause_timer {v : World} (hwf : WF v) {tm : AppTimer} (hm : tm ∈ v.timers)
    (hcb : tm.callback = .send_playpause_cb) (hdue : tm.deadline ≤ v.now) :
    fire_timer tm.id v =
      send_command "playpause"
        { v with timers := v.timers.filter (fun x => x.id != tm.id),
                 s_playpause_delay_timer := none } ∧
    (fire_timer tm.id v).pending .send_playpause_cb = [] := by
  have he : fire_timer tm.id v =
      send_command "playpause"
        { v with timers := v.timers.filter (fun x => x.id != tm.id),
                 s_playpause_delay_timer := none } := by
    simp [fire_timer, find_id_of_mem hwf.distinct hm, hdue, hcb, TimerCallback.run,
      send_playpause_cb]
  refine ⟨he, ?_⟩
  rw [he]
  simp only [World.pending]
  rw [List.filter_eq_nil_iff]
  intro x hx hc
  have hc' : x.callback = .send_playpause_cb := by simpa using hc
  obtain ⟨-, -, -, -, -, f6⟩ := send_command_frame "playpause"
    { v with timers := v.timers.filter (fun x => x.id != tm.id),
             s_playpause_delay_timer := none }
  rcases f6 x hx with h | h
  · have hx' := List.mem_filter.mp h
    have t1 := hwf.tracked x hx'.1
    have t2 := hwf.tracked tm hm
    rw [hc'] at t1; rw [hcb, t1] at t2
    have : x.id = tm.id := Option.some.inj t2
    simp [this] at hx'
  · rw [h.2] at hc'; cases hc'

theorem run_cons (w : World) (e : Event) (es : List Event) :
    run w (e :: es) = run (step w e) es := rfl

/-- The state after a burst of presses. -/
theorem long_presses_end (gaps : List Nat) (w : World) (hwf : WF w) :
    (run w (long_presses gaps)).s_mode = w.s_mode ∧
    (run w (long_presses gaps)).sent = w.sent ∧
    (run w (long_presses gaps)).outbox_begin_calls = w.outbox_begin_calls ∧
    (run w (long_presses gaps)).now = w.now + gaps.sum ∧
    ∃ id, (run w (long_presses gaps)).s_playpause_delay_timer = some id ∧
      (run w (long_presses gaps)).pending .send_playpause_cb =
        [⟨id, w.now + gaps.sum + 100, .send_playpause_cb⟩] := by
  induction gaps generalizing w with
  | nil =>
    obtain ⟨h1, h2, h3, h4, h5, h6, -⟩ := select_long_effect w hwf
    exact ⟨h1, h2, h3, by simpa using h4, w.next_timer, h5, by simpa using h6⟩
  | cons d ds ih =>
    obtain ⟨h1, h2, h3, h4, -, -, -⟩ := select_long_effect w hwf
    have hwf2 : WF (step (step w .select_long) (.tick d)) :=
      WF_step (WF_step hwf _) _
    obtain ⟨i1, i2, i3, i4, id, i5, i6⟩ := ih (step (step w .select_long) (.tick d)) hwf2
    have e : run w (long_presses (d :: ds)) =
        run (step (step w .select_long) (.tick d)) (long_presses ds) := rfl
    have hn : (step (step w .select_long) (.tick d)).now = w.now + d := by
      show (select_long_click_handler w).now + d = w.now + d
      rw [h4]
    rw [e]
    refine ⟨i1.trans h1, i2.trans h2, i3.trans h3, ?_, id, i5, ?_⟩
    · rw [i4, hn, List.sum_cons]; omega
    · rw [i6, hn, List.sum_cons]
      simp only [Nat.add_assoc]

/-- During a burst whose gaps are all below 100 ms, no debounce timer is ever due. -/
theorem long_presses_not_due (gaps : List Nat) (hg : ∀ d ∈ gaps, d < 100) (w : World)
    (hwf : WF w) (es : List Event) (hpre : es <+: long_presses gaps) (hne : es ≠ []) :
    ∀ tm ∈ (run w es).pending .send_playpause_cb, (run w es).now < tm.deadline := by
  have hpress : ∀ tm ∈ (run w [.select_long]).pending .send_playpause_cb,
      (run w [.select_long]).now < tm.deadline := by
    obtain ⟨-, -, -, h4, -, h6, -⟩ := select_long_effect w hwf
    intro tm hm
    have h6' : (run w [.select_long]).pending .send_playpause_cb =
        [⟨w.next_timer, w.now + 100, .send_playpause_cb⟩] := h6
    have h4' : (run w [.select_long]).now = w.now := h4
    rw [h6'] at hm
    simp only [List.mem_singleton] at hm
    subst hm
    rw [h4']; simp
  induction gaps generalizing w es with
  | nil =>
    simp only [long_presses] at hpre
    rcases List.prefix_cons_iff.mp hpre with h | ⟨t, ht, hp⟩
    · exact absurd h hne
    · have : t = [] := List.prefix_nil.mp hp
      subst this; subst ht
      exact hpress
  | cons d ds ih =>
    simp only [long_presses] at hpre
    rcases List.prefix_cons_iff.mp hpre with h | ⟨t, ht, hp⟩
    · exact absurd h hne
    · subst ht
      rcases List.prefix_cons_iff.mp hp with h | ⟨t2, ht2, hp2⟩
      · subst h; exact hpress
      · subst ht2
        by_cases ht2 : t2 = []
        · subst ht2
          obtain ⟨-, -, -, h4, -, h6, -⟩ := select_long_effect w hwf
          intro tm hm
          have hd := hg d (List.mem_cons_self _ _)
          have e1 : (run w [.select_long, .tick d]).now = w.now + d := by
            show (select_long_click_handler w).now + d = w.now + d
            rw [h4]
          have e2 : (run w [.select_long, .tick d]).pending .send_playpause_cb =
              [⟨w.next_timer, w.now + 100, .send_playpause_cb⟩] := h6
          rw [e2] at hm
          simp only [List.mem_singleton] at hm
          subst hm
          rw [e1]; simp only; omega
        · have hwf2 : WF (step (step w .select_long) (.tick d)) :=
            WF_step (WF_step hwf _) _
          have hpress2 : ∀ tm ∈ (run (step (step w .select_long) (.tick d))
              [.select_long]).pending .send_playpause_cb,
              (run (step (step w .select_long) (.tick d)) [.select_long]).now <
                tm.deadline := by
            obtain ⟨-, -, -, h4, -, h6, -⟩ :=
              select_long_effect (step (step w .select_long) (.tick d)) hwf2
            intro tm hm
            have h6' : (run (step (step w .select_long) (.tick d))
                [.select_long]).pending .send_playpause_cb =
                [⟨(step (step w .select_long) (.tick d)).next_timer,
                  (step (step w .select_long) (.tick d)).now + 100,
                  .send_playpause_cb⟩] := h6
            have h4' : (run (step (step w .select_long) (.tick d)) [.select_long]).now =
                (step (step w .select_long) (.tick d)).now := h4
            rw [h6'] at hm
            simp only [List.mem_singleton] at hm
            subst hm
            rw [h4']; simp
          exact ih (fun x hx => hg x (List.mem_cons_of_mem _ hx))
            (step (step w .select_long) (.tick d)) hwf2 t2 hp2 ht2 hpress2

/-! ## Frames of the button handlers -/

theorem send_command_unloaded (cmd : String) (v : World) (hl : v.s_window_loaded = false) :
    send_command cmd v = v := by
  rw [send_command_eq]
  simp [hl]

theorem update_ui_unloaded (v : World) (hl : v.s_window_loaded = false) :
    update_ui v = { v with update_ui_calls := v.update_ui_calls + 1 } := by
  simp [update_ui, hl]

theorem select_long_effect_mode (v : World) :
    (select_long_click_handler v).s_mode = v.s_mode := by
  rw [select_long_click_handler_eq]
  simp only
  split
  · rw [reset_zone_timer_eq]
  · rfl

/-! ## The Zone revert timer along a run -/

theorem ZoneTimed_keep {v v' : World} (h : ZoneTimed v)
    (ht : ∀ tm ∈ v.timers, tm.callback = .zone_revert_callback → tm ∈ v'.timers)
    (hm : v'.s_mode = v.s_mode) (hn : v.now ≤ v'.now) : ZoneTimed v' := by
  intro hz
  rw [hm] at hz
  obtain ⟨tm, hmem, hc, hd⟩ := h hz
  exact ⟨tm, ht tm hmem hc, hc, by omega⟩

theorem ZoneTimed_of_track {v : World} (hm : v.s_mode = .MODE_TRACK) : ZoneTimed v := by
  intro hz
  rw [hm] at hz
  cases hz

theorem ZoneTimed_reset_zone_timer (v : World) : ZoneTimed (reset_zone_timer v) := by
  rw [reset_zone_timer_eq]
  intro _
  exact ⟨⟨v.next_timer, v.now + 4000, .zone_revert_callback⟩, by simp, rfl, Nat.le_refl _⟩

theorem ZoneTimed_send_command (cmd : String) {v : World} (hwf : WF v) (h : ZoneTimed v) :
    ZoneTimed (send_command cmd v) := by
  rw [send_command_eq]
  split
  · split
    · rw [trigger_cooldown_eq]
      refine ZoneTimed_keep h ?_ rfl (Nat.le_refl _)
      intro tm hm hc
      refine List.mem_append_left _ ?_
      exact mem_cancel_opt_of_ne hwf .cooldown_cb hm (by rw [hc]; simp)
    · exact ZoneTimed_keep h (fun _ hm _ => hm) rfl (Nat.le_refl _)
  · exact h

theorem ZoneTimed_update_ui {v : World} (h : ZoneTimed v) : ZoneTimed (update_ui v) := by
  obtain ⟨z, hz⟩ := update_ui_eq v
  rw [hz]
  exact ZoneTimed_keep h (fun _ hm _ => hm) rfl (Nat.le_refl _)

theorem ZoneTimed_select_click_handler (v : World) : ZoneTimed (select_click_handler v) := by
  unfold select_click_handler
  split
  · exact ZoneTimed_update_ui (ZoneTimed_reset_zone_timer _)
  · split
    · obtain ⟨z, hz⟩ := update_ui_eq
        { (send_command "status" (cancel_zone_timer v)) with s_mode := .MODE_TRACK }
      rw [hz]
      exact ZoneTimed_of_track rfl
    · rename_i h1 h2
      cases hm : v.s_mode
      · exact absurd hm h1
      · exact absurd hm h2

theorem ZoneTimed_select_long_click_handler (v : World) :
    ZoneTimed (select_long_click_handler v) := by
  rw [select_long_click_handler_eq]
  simp only
  split
  · exact ZoneTimed_reset_zone_timer _
  · rename_i hz
    intro hz'
    exact absurd hz' hz

theorem filter_id_mem_of_ne {v : World} (hwf : WF v) {tm x : AppTimer} (hm : tm ∈ v.timers)
    (hx : x ∈ v.timers) (hne : x.callback ≠ tm.callback) :
    x ∈ v.timers.filter (fun y => y.id != tm.id) := by
  refine List.mem_filter.mpr ⟨hx, ?_⟩
  have : x.id ≠ tm.id := by
    intro he
    have := eq_of_id_eq hwf.distinct hx hm he
    rw [this] at hne
    exact hne rfl
  simpa using this

/-- The state between a timer's removal by the service and the body of its callback
keeps the handle discipline once the handle variable is cleared. -/
theorem WF_playpause_taken {v : World} (hwf : WF v) {tm : AppTimer} (hm : tm ∈ v.timers)
    (hcb : tm.callback = .send_playpause_cb) :
    WF { v with timers := v.timers.filter (fun x => x.id != tm.id),
                s_playpause_delay_timer := none } := by
  refine hwf.of_fire tm hm rfl rfl (by rw [hcb]; rfl) ?_
  intro k hk; rw [hcb] at hk; cases k <;> simp_all [World.handle]

theorem ZoneTimed_fire_timer (i : Nat) {v : World} (hwf : WF v) (h : ZoneTimed v) :
    ZoneTimed (fire_timer i v) := by
  unfold fire_timer
  cases hf : v.timers.find? (fun tm => tm.id == i) with
  | none => exact h
  | some tm =>
    obtain ⟨hm, hid⟩ := find_id_some hf
    simp only
    split
    · subst hid
      cases hcb : tm.callback with
      | cooldown_cb =>
        simp only [TimerCallback.run, cooldown_cb]
        refine ZoneTimed_keep h ?_ rfl (Nat.le_refl _)
        intro x hx hc
        exact filter_id_mem_of_ne hwf hm hx (by rw [hc, hcb]; simp)
      | send_playpause_cb =>
        simp only [TimerCallback.run, send_playpause_cb]
        apply ZoneTimed_send_command _ (WF_playpause_taken hwf hm hcb)
        refine ZoneTimed_keep h ?_ rfl (Nat.le_refl _)
        intro x hx hc
        exact filter_id_mem_of_ne hwf hm hx (by rw [hc, hcb]; simp)
      | zone_revert_callback =>
        simp only [TimerCallback.run, zone_revert_callback]
        split
        · obtain ⟨z, hz⟩ := update_ui_eq
            { v with timers := v.timers.filter (fun x => x.id != tm.id),
                     s_zone_revert_timer := none, s_mode := .MODE_TRACK }
          rw [hz]
          exact ZoneTimed_of_track rfl
        · rename_i hz
          intro hz'
          exact absurd hz' hz
    · exact h

theorem ZoneTimed_step {v : World} (hwf : WF v) (h : ZoneTimed v) (e : Event)
    (he : e ≠ .unload) : ZoneTimed (step v e) := by
  cases e with
  | tick ms => exact ZoneTimed_keep h (fun _ hm _ => hm) rfl (Nat.le_add_right _ _)
  | up =>
    simp only [step, up_click_handler]
    split
    · exact ZoneTimed_send_command _ hwf h
    · split
      · exact ZoneTimed_send_command _ (WF_reset_zone_timer hwf) (ZoneTimed_reset_zone_timer _)
      · exact h
  | down =>
    simp only [step, down_click_handler]
    split
    · exact ZoneTimed_send_command _ hwf h
    · split
      · exact ZoneTimed_send_command _ (WF_reset_zone_timer hwf) (ZoneTimed_reset_zone_timer _)
      · exact h
  | select => exact ZoneTimed_select_click_handler v
  | select_long => exact ZoneTimed_select_long_click_handler v
  | fire i => exact ZoneTimed_fire_timer i hwf h
  | inbox msg =>
    obtain ⟨b, z, t, a, p, s, f, hh⟩ := inbox_received_callback_eq msg v
    simp only [step, hh]
    exact ZoneTimed_keep h (fun _ hm _ => hm) rfl (Nat.le_refl _)
  | load => exact ZoneTimed_keep h (fun _ hm _ => hm) rfl (Nat.le_refl _)
  | unload => exact absurd rfl he
  | outbox r => exact ZoneTimed_keep h (fun _ hm _ => hm) rfl (Nat.le_refl _)

theorem ZoneTimed_run {v : World} (hwf : WF v) (h : ZoneTimed v) (es : List Event)
    (he : ∀ e ∈ es, e ≠ .unload) : ZoneTimed (run v es) := by
  induction es generalizing v with
  | nil => exact h
  | cons e es ih =>
    exact ih (WF_step hwf e) (ZoneTimed_step hwf h e (he e (List.mem_cons_self _ _)))
      (fun e' he' => he e' (List.mem_cons_of_mem _ he'))

/-- No stranding while the window is never unloaded: after any events from the
initial state with no window unload among them, Zone mode comes with a pending Zone
revert timer due at most 4000 ms from now. -/
theorem zone_timer_without_unload (es : List Event) (hes : ∀ e ∈ es, e ≠ .unload)
    (hz : (run World.init es).s_mode = .MODE_ZONE) :
    ∃ tm ∈ (run World.init es).timers,
      tm.callback = .zone_revert_callback ∧ tm.deadline ≤ (run World.init es).now + 4000 :=
  ZoneTimed_run WF_init (ZoneTimed_of_track rfl) es hes hz

/-! ## The zone line's highlighting -/

theorem update_ui_styled (v : World) (hl : v.s_window_loaded = true)
    (hz : ∃ l, v.s_zone_layer = some l) : Styled (update_ui v) := by
  obtain ⟨l, hz⟩ := hz
  unfold update_ui
  by_cases hm : v.s_mode = .MODE_ZONE
  · simp [hl, hz, safe_set_text, hm, Styled, TextLayer.highlighted]
  · simp [hl, hz, safe_set_text, hm, Styled, TextLayer.highlighted]

theorem Styled_keep {v v' : World} (h : Styled v)
    (hl : v'.s_window_loaded = v.s_window_loaded) (hz : v'.s_zone_layer = v.s_zone_layer)
    (hm : v'.s_mode = v.s_mode) : Styled v' := by
  obtain ⟨h1, l, h2, h3⟩ := h
  exact ⟨by rw [hl]; exact h1, l, by rw [hz]; exact h2, by rw [hm]; exact h3⟩

theorem send_command_layers (cmd : String) (v : World) :
    (send_command cmd v).s_window_loaded = v.s_window_loaded ∧
    (send_command cmd v).s_zone_layer = v.s_zone_layer ∧
    (send_command cmd v).s_zone_buf = v.s_zone_buf := by
  rw [send_command_eq]
  split
  · split
    · rw [trigger_cooldown_eq]; exact ⟨rfl, rfl, rfl⟩
    · exact ⟨rfl, rfl, rfl⟩
  · exact ⟨rfl, rfl, rfl⟩

theorem Styled_send_command (cmd : String) {v : World} (h : Styled v) :
    Styled (send_command cmd v) := by
  obtain ⟨f1, f2, -⟩ := send_command_layers cmd v
  exact Styled_keep h f1 f2 (send_command_frame cmd v).1

theorem Styled_reset_zone_timer {v : World} (h : Styled v) : Styled (reset_zone_timer v) := by
  rw [reset_zone_timer_eq]
  exact Styled_keep h rfl rfl rfl

/-- A received message changes at most the text of the zone line, never its colours. -/
theorem inbox_zone_layer (msg : DictionaryIterator) (v : World) :
    (inbox_received_callback msg v).s_zone_layer = v.s_zone_layer ∨
    ∃ l, v.s_zone_layer = some l ∧
      (inbox_received_callback msg v).s_zone_layer =
        some ⟨.zone_buf, l.background_color, l.text_color⟩ := by
  unfold inbox_received_callback
  cases hl : v.s_window_loaded
  · left; simp
  · cases hz : v.s_zone_layer with
    | none =>
      left
      cases dict_find msg KEY_ZONE_NAME <;> cases dict_find msg KEY_TRACK <;>
        cases dict_find msg KEY_ARTIST <;> cases dict_find msg KEY_IS_PLAYING <;>
        cases dict_find msg KEY_IS_FIXED <;> simp [safe_set_text, hz]
    | some l =>
      cases dict_find msg KEY_ZONE_NAME with
      | none =>
        left
        cases dict_find msg KEY_TRACK <;>
          cases dict_find msg KEY_ARTIST <;> cases dict_find msg KEY_IS_PLAYING <;>
          cases dict_find msg KEY_IS_FIXED <;> simp [hz]
      | some t =>
        right
        refine ⟨l, rfl, ?_⟩
        cases dict_find msg KEY_TRACK <;>
          cases dict_find msg KEY_ARTIST <;> cases dict_find msg KEY_IS_PLAYING <;>
          cases dict_find msg KEY_IS_FIXED <;> simp [safe_set_text, hz, hl]

theorem Styled_inbox_received_callback (msg : DictionaryIterator) {v : World}
    (h : Styled v) : Styled (inbox_received_callback msg v) := by
  obtain ⟨b, z, t, a, p, s, f, hh⟩ := inbox_received_callback_eq msg v
  have hl : (inbox_received_callback msg v).s_window_loaded = v.s_window_loaded := by
    rw [hh]
  have hm : (inbox_received_callback msg v).s_mode = v.s_mode := by rw [hh]
  rcases inbox_zone_layer msg v with hz | ⟨l, hz1, hz2⟩
  · exact Styled_keep h hl hz hm
  · obtain ⟨h1, l', h2, h3⟩ := h
    rw [hz1] at h2
    cases h2
    refine ⟨by rw [hl]; exact h1, _, hz2, ?_⟩
    rw [hm]
    exact h3

theorem Styled_select_click_handler {v : World} (h : Styled v) :
    Styled (select_click_handler v) := by
  unfold select_click_handler
  obtain ⟨h1, l, h2, -⟩ := h
  apply update_ui_styled
  · split
    · rw [reset_zone_timer_eq]; exact h1
    · split
      · show (send_command "status" (cancel_zone_timer v)).s_window_loaded = true
        rw [(send_command_layers _ _).1, cancel_zone_timer_eq]; exact h1
      · exact h1
  · refine ⟨l, ?_⟩
    split
    · rw [reset_zone_timer_eq]; exact h2
    · split
      · show (send_command "status" (cancel_zone_timer v)).s_zone_layer = some l
        rw [(send_command_layers _ _).2.1, cancel_zone_timer_eq]; exact h2
      · exact h2

theorem Styled_select_long_click_handler {v : World} (h : Styled v) :
    Styled (select_long_click_handler v) := by
  rw [select_long_click_handler_eq]
  simp only
  split
  · rw [reset_zone_timer_eq]; exact Styled_keep h rfl rfl rfl
  · exact Styled_keep h rfl rfl rfl

theorem Styled_fire_timer (i : Nat) {v : World} (h : Styled v) : Styled (fire_timer i v) := by
  unfold fire_timer
  cases hf : v.timers.find? (fun tm => tm.id == i) with
  | none => exact h
  | some tm =>
    simp only
    split
    · cases hcb : tm.callback with
      | cooldown_cb =>
        simp only [TimerCallback.run, cooldown_cb]
        exact Styled_keep h rfl rfl rfl
      | send_playpause_cb =>
        simp only [TimerCallback.run, send_playpause_cb]
        exact Styled_send_command _ (Styled_keep h rfl rfl rfl)
      | zone_revert_callback =>
        simp only [TimerCallback.run, zone_revert_callback]
        split
        · obtain ⟨h1, l, h2, -⟩ := h
          exact update_ui_styled _ h1 ⟨l, h2⟩
        · exact Styled_keep h rfl rfl rfl
    · exact h

theorem Styled_step {v : World} (h : Styled v) (e : Event)
    (he : e ≠ .load ∧ e ≠ .unload) : Styled (step v e) := by
  cases e with
  | tick ms => exact Styled_keep h rfl rfl rfl
  | up =>
    simp only [step, up_click_handler]
    split
    · exact Styled_send_command _ h
    · split
      · exact Styled_send_command _ (Styled_reset_zone_timer h)
      · exact h
  | down =>
    simp only [step, down_click_handler]
    split
    · exact Styled_send_command _ h
    · split
      · exact Styled_send_command _ (Styled_reset_zone_timer h)
      · exact h
  | select => exact Styled_select_click_handler h
  | select_long => exact Styled_select_long_click_handler h
  | fire i => exact Styled_fire_timer i h
  | inbox msg => exact Styled_inbox_received_callback msg h
  | load => exact absurd rfl he.1
  | unload => exact absurd rfl he.2
  | outbox r => exact Styled_keep h rfl rfl rfl

theorem Styled_run {v : World} (h : Styled v) (es : List Event)
    (he : ∀ e ∈ es, e ≠ .load ∧ e ≠ .unload) : Styled (run v es) := by
  induction es generalizing v with
  | nil => exact h
  | cons e es ih =>
    exact ih (Styled_step h e (he e (List.mem_cons_self _ _)))
      (fun e' he' => he e' (List.mem_cons_of_mem _ he'))

/-- Consistent highlighting while the window is loaded once and stays: after the
initial load and any events with no further load or unload among them, the zone line
is highlighted exactly in Zone mode. -/
theorem highlight_while_loaded (es : List Event) (hes : ∀ e ∈ es, e ≠ .load ∧ e ≠ .unload) :
    Styled (run World.init (.load :: es)) := by
  have h0 : Styled (step World.init .load) :=
    ⟨rfl, ⟨.static "Connecting...", .GColorClear, .GColorWhite⟩, rfl, by decide⟩
  exact Styled_run h0 es hes

/-- A message carrying only a zone name, received in Track mode with an un-highlighted
zone line: the buffer takes the name, the line shows the buffer and stays
un-highlighted, the mode stays Track. -/
theorem zone_name_in_track (v : World) (hl : v.s_window_loaded = true)
    (hm : v.s_mode = .MODE_TRACK) (l : TextLayer) (hz : v.s_zone_layer = some l)
    (hh : l.highlighted = false) (n : Nat) (name : List Nat) :
    (inbox_received_callback [⟨KEY_ZONE_NAME, n, name⟩] v).s_zone_buf =
      snprintf v.s_zone_buf 64 name ∧
    (inbox_received_callback [⟨KEY_ZONE_NAME, n, name⟩] v).s_zone_layer =
      some ⟨.zone_buf, l.background_color, l.text_color⟩ ∧
    (∀ l', (inbox_received_callback [⟨KEY_ZONE_NAME, n, name⟩] v).s_zone_layer = some l' →
      l'.highlighted = false) ∧
    (inbox_received_callback [⟨KEY_ZONE_NAME, n, name⟩] v).s_mode = .MODE_TRACK := by
  have e : inbox_received_callback [⟨KEY_ZONE_NAME, n, name⟩] v =
      { v with s_zone_buf := snprintf v.s_zone_buf 64 name,
               s_zone_layer := some ⟨.zone_buf, l.background_color, l.text_color⟩ } := by
    simp [inbox_received_callback, hl, dict_find, KEY_ZONE_NAME, KEY_TRACK, KEY_ARTIST,
      KEY_IS_PLAYING, KEY_IS_FIXED, safe_set_text, hz]
  rw [e]
  refine ⟨rfl, rfl, ?_, hm⟩
  intro l' hl'
  cases hl'
  exact hh

/-! ## The zone name buffer and the tuple decoder -/

theorem cstring_append_nul (s rest : List Nat) (hs : ∀ b ∈ s, b ≠ 0) :
    cstring (s ++ 0 :: rest) = s := by
  unfold cstring
  induction s with
  | nil => simp
  | cons a l ih =>
    have ha : a ≠ 0 := hs a (List.mem_cons_self _ _)
    simp only [List.cons_append, List.takeWhile_cons, bne_iff_ne, ne_eq, ha, not_false_eq_true,
      decide_True, if_true]
    rw [ih (fun b hb => hs b (List.mem_cons_of_mem _ hb))]

theorem inbox_zone_buf (msg : DictionaryIterator) (w : World) (t : Tuple)
    (hl : w.s_window_loaded = true) (hf : dict_find msg KEY_ZONE_NAME = some t) :
    (inbox_received_callback msg w).s_zone_buf = snprintf w.s_zone_buf 64 t.value := by
  unfold inbox_received_callback
  cases dict_find msg KEY_TRACK <;>
    cases dict_find msg KEY_ARTIST <;> cases dict_find msg KEY_IS_PLAYING <;>
    cases dict_find msg KEY_IS_FIXED <;> simp [hl, hf]

/-! ## No stale Zone timer -/

theorem ZoneLive_keep {v v' : World} (h : ZoneLive v)
    (ht : ∀ tm ∈ v'.timers, tm.callback = .zone_revert_callback → tm ∈ v.timers)
    (hm : v'.s_mode = v.s_mode) : ZoneLive v' := by
  intro tm hmem hc
  rw [hm]
  exact h tm (ht tm hmem hc) hc

theorem ZoneLive_of_zone {v : World} (hm : v.s_mode = .MODE_ZONE) : ZoneLive v :=
  fun _ _ _ => hm

theorem ZoneLive_of_none {v : World}
    (h : ∀ tm ∈ v.timers, tm.callback ≠ .zone_revert_callback) : ZoneLive v :=
  fun tm hm hc => absurd hc (h tm hm)

theorem ZoneLive_send_command (cmd : String) {v : World} (h : ZoneLive v) :
    ZoneLive (send_command cmd v) := by
  obtain ⟨f1, -, -, -, -, f6⟩ := send_command_frame cmd v
  refine ZoneLive_keep h ?_ f1
  intro tm hm hc
  rcases f6 tm hm with h1 | h1
  · exact h1
  · rw [h1.2] at hc; cases hc

theorem ZoneLive_update_ui {v : World} (h : ZoneLive v) : ZoneLive (update_ui v) := by
  obtain ⟨z, hz⟩ := update_ui_eq v
  rw [hz]
  exact ZoneLive_keep h (fun _ hm _ => hm) rfl

/-- After `cancel_zone_timer` and a `send_command` no Zone revert timer is pending. -/
theorem no_zone_timer_after_cancel (cmd : String) {v : World} (hwf : WF v) :
    ∀ tm ∈ (send_command cmd (cancel_zone_timer v)).timers,
      tm.callback ≠ .zone_revert_callback := by
  intro tm hm hc
  have hp := pending_cancel_opt hwf .zone_revert_callback
  simp only [World.handle] at hp
  rcases (send_command_frame cmd (cancel_zone_timer v)).2.2.2.2.2 tm hm with h | h
  · rw [cancel_zone_timer_eq] at h
    have : tm ∈ (cancel_opt v.s_zone_revert_timer v.timers).filter
        (fun x => x.callback = .zone_revert_callback) :=
      List.mem_filter.mpr ⟨h, by simpa using hc⟩
    rw [hp] at this
    cases this
  · rw [h.2] at hc; cases hc

theorem ZoneLive_select_click_handler {v : World} (hwf : WF v) :
    ZoneLive (select_click_handler v) := by
  unfold select_click_handler
  apply ZoneLive_update_ui
  split
  · apply ZoneLive_of_zone
    rw [reset_zone_timer_eq]
  · split
    · exact ZoneLive_of_none (no_zone_timer_after_cancel "status" hwf)
    · rename_i h1 h2
      cases hm : v.s_mode
      · exact absurd hm h1
      · exact absurd hm h2

theorem ZoneLive_select_long_click_handler {v : World} (h : ZoneLive v) :
    ZoneLive (select_long_click_handler v) := by
  rw [select_long_click_handler_eq]
  simp only
  split
  · rename_i hz
    apply ZoneLive_of_zone
    rw [reset_zone_timer_eq]
    exact hz
  · refine ZoneLive_keep h ?_ rfl
    intro tm hm hc
    simp only [List.mem_append, List.mem_singleton] at hm
    rcases hm with hm | hm
    · exact (mem_cancel_opt hm).1
    · subst hm; cases hc

/-- Once a Zone revert timer has been taken out by the service, none is pending. -/
theorem no_zone_timer_after_fire {v : World} (hwf : WF v) {tm : AppTimer} (hm : tm ∈ v.timers)
    (hcb : tm.callback = .zone_revert_callback) :
    ∀ x ∈ v.timers.filter (fun y => y.id != tm.id), x.callback ≠ .zone_revert_callback := by
  intro x hx hc
  have hx' := List.mem_filter.mp hx
  have t1 := hwf.tracked x hx'.1
  have t2 := hwf.tracked tm hm
  rw [hc] at t1; rw [hcb, t1] at t2
  have : x.id = tm.id := Option.some.inj t2
  simp [this] at hx'

theorem ZoneLive_fire_timer (i : Nat) {v : World} (hwf : WF v) (h : ZoneLive v) :
    ZoneLive (fire_timer i v) := by
  unfold fire_timer
  cases hf : v.timers.find? (fun tm => tm.id == i) with
  | none => exact h
  | some tm =>
    obtain ⟨hm, hid⟩ := find_id_some hf
    simp only
    split
    · subst hid
      have h1 : ZoneLive { v with timers := v.timers.filter (fun x => x.id != tm.id) } :=
        ZoneLive_keep h (fun x hx _ => (List.mem_filter.mp hx).1) rfl
      cases hcb : tm.callback with
      | cooldown_cb =>
        simp only [TimerCallback.run, cooldown_cb]
        exact ZoneLive_keep h1 (fun _ hx _ => hx) rfl
      | send_playpause_cb =>
        simp only [TimerCallback.run, send_playpause_cb]
        exact ZoneLive_send_command _ (ZoneLive_keep h1 (fun _ hx _ => hx) rfl)
      | zone_revert_callback =>
        have hnone := no_zone_timer_after_fire hwf hm hcb
        simp only [TimerCallback.run, zone_revert_callback]
        split
        · obtain ⟨z, hz⟩ := update_ui_eq
            { v with timers := v.timers.filter (fun x => x.id != tm.id),
                     s_zone_revert_timer := none, s_mode := .MODE_TRACK }
          rw [hz]
          exact ZoneLive_of_none hnone
        · exact ZoneLive_of_none hnone
    · exact h

theorem ZoneLive_step {v : World} (hwf : WF v) (h : ZoneLive v) (e : Event) :
    ZoneLive (step v e) := by
  cases e with
  | tick ms => exact ZoneLive_keep h (fun _ hm _ => hm) rfl
  | up =>
    simp only [step, up_click_handler]
    split
    · exact ZoneLive_send_command _ h
    · split
      · rename_i hz
        apply ZoneLive_of_zone
        rw [(send_command_frame _ _).1, reset_zone_timer_eq]
        exact hz
      · exact h
  | down =>
    simp only [step, down_click_handler]
    split
    · exact ZoneLive_send_command _ h
    · split
      · rename_i hz
        apply ZoneLive_of_zone
        rw [(send_command_frame _ _).1, reset_zone_timer_eq]
        exact hz
      · exact h
  | select => exact ZoneLive_select_click_handler hwf
  | select_long => exact ZoneLive_select_long_click_handler h
  | fire i => exact ZoneLive_fire_timer i hwf h
  | inbox msg =>
    obtain ⟨b, z, t, a, p, s, f, hh⟩ := inbox_received_callback_eq msg v
    simp only [step, hh]
    exact ZoneLive_keep h (fun _ hm _ => hm) rfl
  | load => exact ZoneLive_keep h (fun _ hm _ => hm) rfl
  | unload =>
    obtain ⟨f1, -, f3⟩ := window_unload_frame v
    exact ZoneLive_keep h (fun x hx _ => f3 x hx) f1
  | outbox r => exact ZoneLive_keep h (fun _ hm _ => hm) rfl

theorem ZoneLive_run {v : World} (hwf : WF v) (h : ZoneLive v) (es : List Event) :
    ZoneLive (run v es) := by
  induction es generalizing v with
  | nil => exact h
  | cons e es ih => exact ih (WF_step hwf e) (ZoneLive_step hwf h e)

/-- Under the handle discipline at most one timer per callback is pending. -/
theorem pending_length_le_one {v : World} (hwf : WF v) (cb : TimerCallback) :
    (v.pending cb).length ≤ 1 := by
  have hd : (v.pending cb).Pairwise (fun a b => a.id ≠ b.id) :=
    hwf.distinct.sublist (List.filter_sublist _)
  have hall : ∀ x ∈ v.pending cb, v.handle cb = some x.id := by
    intro x hx
    have hx' := List.mem_filter.mp hx
    have hc : x.callback = cb := by simpa using hx'.2
    rw [← hc]
    exact hwf.tracked x hx'.1
  cases hl : v.pending cb with
  | nil => simp
  | cons a l =>
    cases l with
    | nil => simp
    | cons b l' =>
      exfalso
      rw [hl] at hd hall
      have h1 := hall a (List.mem_cons_self _ _)
      have h2 := hall b (List.mem_cons_of_mem _ (List.mem_cons_self _ _))
      rw [h1] at h2
      have hne := (List.pairwise_cons.mp hd).1 b (List.mem_cons_self _ _)
      exact hne (Option.some.inj h2)

/-! ## Runs in which the window is not loaded again -/

theorem window_unload_loaded (v : World) : (window_unload v).s_window_loaded = false := by
  unfold window_unload
  simp only [cancel_zone_timer_eq]
  cases v.s_network_cooldown_timer <;> cases v.s_playpause_delay_timer <;>
    simp [app_timer_cancel]

theorem fire_timer_loaded (i : Nat) (v : World) :
    (fire_timer i v).s_window_loaded = v.s_window_loaded := by
  unfold fire_timer
  cases hf : v.timers.find? (fun tm => tm.id == i) with
  | none => rfl
  | some tm =>
    simp only
    split
    · cases hcb : tm.callback with
      | cooldown_cb => rfl
      | send_playpause_cb =>
        simp only [TimerCallback.run, send_playpause_cb]
        rw [(send_command_layers _ _).1]
      | zone_revert_callback =>
        simp only [TimerCallback.run, zone_revert_callback]
        split
        · obtain ⟨z, hz⟩ := update_ui_eq
            { v with timers := v.timers.filter (fun x => x.id != i),
                     s_zone_revert_timer := none, s_mode := .MODE_TRACK }
          rw [hz]
        · rfl
    · rfl

theorem select_click_handler_loaded (v : World) :
    (select_click_handler v).s_window_loaded = v.s_window_loaded := by
  unfold select_click_handler
  split
  · obtain ⟨z, hz⟩ := update_ui_eq (reset_zone_timer { v with s_mode := .MODE_ZONE })
    rw [hz, reset_zone_timer_eq]
  · split
    · obtain ⟨z, hz⟩ := update_ui_eq
        { (send_command "status" (cancel_zone_timer v)) with s_mode := .MODE_TRACK }
      rw [hz]
      show (send_command "status" (cancel_zone_timer v)).s_window_loaded = _
      rw [(send_command_layers _ _).1, cancel_zone_timer_eq]
    · obtain ⟨z, hz⟩ := update_ui_eq v
      rw [hz]

/-- Only `window_load` and `window_unload` write the loaded flag. -/
theorem step_loaded (v : World) (e : Event) (h1 : e ≠ .load) (h2 : e ≠ .unload) :
    (step v e).s_window_loaded = v.s_window_loaded := by
  cases e with
  | tick ms => rfl
  | up =>
    simp only [step, up_click_handler]
    split
    · exact (send_command_layers _ _).1
    · split
      · rw [(send_command_layers _ _).1, reset_zone_timer_eq]
      · rfl
  | down =>
    simp only [step, down_click_handler]
    split
    · exact (send_command_layers _ _).1
    · split
      · rw [(send_command_layers _ _).1, reset_zone_timer_eq]
      · rfl
  | select => exact select_click_handler_loaded v
  | select_long =>
    simp only [step]
    rw [select_long_click_handler_eq]
    simp only
    split
    · rw [reset_zone_timer_eq]
    · rfl
  | fire i => exact fire_timer_loaded i v
  | inbox msg =>
    obtain ⟨b, z, t, a, p, s, f, hh⟩ := inbox_received_callback_eq msg v
    simp only [step, hh]
  | load => exact absurd rfl h1
  | unload => exact absurd rfl h2
  | outbox r => rfl

theorem step_unloaded (v : World) (e : Event) (h : e ≠ .load)
    (hv : v.s_window_loaded = false) : (step v e).s_window_loaded = false := by
  by_cases hu : e = .unload
  · subst hu; exact window_unload_loaded v
  · rw [step_loaded v e h hu]; exact hv

/-- A property that every event other than a window unload preserves holds whenever
the window is loaded at the end of a run in which it is not loaded again. -/
theorem loaded_run_of_step (P : World → Prop)
    (hstep : ∀ v e, WF v → P v → e ≠ .load → e ≠ .unload → P (step v e))
    {v : World} (hwf : WF v) (h : v.s_window_loaded = true → P v) (es : List Event)
    (hes : ∀ e ∈ es, e ≠ .load) :
    (run v es).s_window_loaded = true → P (run v es) := by
  induction es generalizing v with
  | nil => exact h
  | cons e es ih =>
    have he := hes e (List.mem_cons_self _ _)
    refine ih (WF_step hwf e) ?_ (fun e' he' => hes e' (List.mem_cons_of_mem _ he'))
    intro hl
    by_cases hu : e = .unload
    · subst hu
      rw [show step v .unload = window_unload v from rfl, window_unload_loaded] at hl
      cases hl
    · cases hv : v.s_window_loaded with
      | true => exact hstep v e hwf (h hv) he hu
      | false =>
        rw [step_unloaded v e he hv] at hl
        cases hl

/-- Without a button event the mode stays Track. -/
theorem step_mode_track (v : World) (e : Event) (he : e.is_button = false)
    (hm : v.s_mode = .MODE_TRACK) : (step v e).s_mode = .MODE_TRACK := by
  cases e with
  | tick ms => exact hm
  | up => cases he
  | down => cases he
  | select => cases he
  | select_long => cases he
  | fire i =>
    simp only [step, fire_timer]
    cases hf : v.timers.find? (fun tm => tm.id == i) with
    | none => exact hm
    | some tm =>
      simp only
      split
      · cases hcb : tm.callback with
        | cooldown_cb => exact hm
        | send_playpause_cb =>
          simp only [TimerCallback.run, send_playpause_cb]
          rw [(send_command_frame _ _).1]
          exact hm
        | zone_revert_callback =>
          simp only [TimerCallback.run, zone_revert_callback]
          split
          · obtain ⟨z, hz⟩ := update_ui_eq
              { v with timers := v.timers.filter (fun x => x.id != i),
                       s_zone_revert_timer := none, s_mode := .MODE_TRACK }
            rw [hz]
          · exact hm
      · exact hm
  | inbox msg =>
    obtain ⟨b, z, t, a, p, s, f, hh⟩ := inbox_received_callback_eq msg v
    simp only [step, hh]
    exact hm
  | load => exact hm
  | unload => rw [show step v .unload = window_unload v from rfl, (window_unload_frame v).1]; exact hm
  | outbox r => exact hm

theorem run_mode_track {v : World} (hm : v.s_mode = .MODE_TRACK) (es : List Event)
    (hes : ∀ e ∈ es, e.is_button = false) : (run v es).s_mode = .MODE_TRACK := by
  induction es generalizing v with
  | nil => exact hm
  | cons e es ih =>
    exact ih (step_mode_track v e (hes e (List.mem_cons_self _ _)) hm)
      (fun e' he' => hes e' (List.mem_cons_of_mem _ he'))

theorem run_append (v : World) (a b : List Event) : run v (a ++ b) = run (run v a) b := by
  simp [run, List.foldl_append]

/-- Delivery of a pending, due cooldown timer reopens the channel and changes nothing
else that `send_command` looks at. -/
theorem fire_cooldown_timer {v : World} (hwf : WF v) {tm : AppTimer} (hm : tm ∈ v.timers)
    (hcb : tm.callback = .cooldown_cb) (hdue : tm.deadline ≤ v.now) :
    fire_timer tm.id v =
      { v with timers := v.timers.filter (fun x => x.id != tm.id),
               s_network_ready := true, s_network_cooldown_timer := none } := by
  simp [fire_timer, find_id_of_mem hwf.distinct hm, hdue, hcb, TimerCallback.run,
    cooldown_cb]

/-! ## The claims -/

/-- C1. Rate limit: along every sequence of events from the initial state, any two
commands handed to the transport are at least 250 ms apart; and in any state reached
less than 250 ms after a command was handed over, `send_command` makes no transport
call and changes nothing. -/
theorem rate_limit (es : List Event) :
    (run World.init es).sent.Pairwise (fun a b => a.1 + 250 ≤ b.1) ∧
    ∀ cmd : String, ∀ e ∈ (run World.init es).sent, (run World.init es).now < e.1 + 250 →
      send_command cmd (run World.init es) = run World.init es := by
  have hT := Throttle_run WF_init Throttle_init es
  refine ⟨hT.spaced, ?_⟩
  intro cmd e he hlt
  have hr : (run World.init es).s_network_ready = false := by
    cases h : (run World.init es).s_network_ready with
    | false => rfl
    | true =>
      have := hT.ready_gap h e he
      omega
  rw [send_command_eq]
  simp [hr]

/-- C1 at a concrete run: 100 ms after `previous` was sent, `next` is dropped. -/
theorem rate_limit_witness :
    (0, "previous") ∈ (run World.init [.load, .up, .tick 100]).sent ∧
    (run World.init [.load, .up, .tick 100]).now < 0 + 250 ∧
    send_command "next" (run World.init [.load, .up, .tick 100]) =
      run World.init [.load, .up, .tick 100] :=
  ⟨by decide, by decide,
    (rate_limit [.load, .up, .tick 100]).2 "next" (0, "previous") (by decide) (by decide)⟩

/-- C2. Throttle rejection: when the channel is not ready or the window is not loaded,
`send_command` returns the state unchanged; in particular no transport call is
recorded and no timer is touched. -/
theorem send_command_rejected (cmd : String) (w : World)
    (h : w.s_network_ready = false ∨ w.s_window_loaded = false) :
    send_command cmd w = w ∧
    (send_command cmd w).sent = w.sent ∧
    (send_command cmd w).outbox_begin_calls = w.outbox_begin_calls := by
  have : send_command cmd w = w := by
    unfold send_command
    rcases h with h | h
    · cases hl : w.s_window_loaded <;> simp [h]
    · simp [h]
  rw [this]
  exact ⟨rfl, rfl, rfl⟩

/-- C2 at the initial state, where the window is not loaded. -/
theorem send_command_rejected_witness :
    send_command "next" World.init = World.init ∧
    (send_command "next" World.init).sent = World.init.sent ∧
    (send_command "next" World.init).outbox_begin_calls = World.init.outbox_begin_calls :=
  send_command_rejected "next" World.init (Or.inr rfl)

/-- C3 as stated fails: with the channel ready and the window loaded but the outbox
busy, `send_command` sends nothing, leaves the channel ready and arms no timer. -/
theorem send_command_busy_counterexample :
    busy_world.s_network_ready = true ∧ busy_world.s_window_loaded = true ∧
    (send_command "next" busy_world).sent = [] ∧
    (send_command "next" busy_world).s_network_ready = true ∧
    (send_command "next" busy_world).timers = [] := by
  decide

/-- C3, amended. Throttle acceptance: in a state that keeps the handle discipline,
with the channel ready, the window loaded and the outbox accepting, `send_command`
hands exactly that one command to the transport, clears the ready flag, cancels the
timer the cooldown handle referred to and leaves exactly one cooldown timer pending,
due 250 ms after the call. -/
theorem send_command_accepted (cmd : String) (w : World) (hwf : WF w)
    (hr : w.s_network_ready = true) (hl : w.s_window_loaded = true)
    (hok : w.outbox_result = .APP_MSG_OK) :
    (send_command cmd w).sent = w.sent ++ [(w.now, cmd)] ∧
    (send_command cmd w).outbox_begin_calls = w.outbox_begin_calls + 1 ∧
    (send_command cmd w).s_network_ready = false ∧
    (send_command cmd w).pending .cooldown_cb =
      [⟨w.next_timer, w.now + 250, .cooldown_cb⟩] ∧
    (send_command cmd w).s_network_cooldown_timer = some w.next_timer ∧
    (∀ h, w.s_network_cooldown_timer = some h →
      ∀ tm ∈ (send_command cmd w).timers, tm.id ≠ h) := by
  rw [send_command_eq, trigger_cooldown_eq]
  simp only [hr, hl, hok, and_self, if_true]
  refine ⟨trivial, trivial, trivial, ?_, trivial, ?_⟩
  · simp only [World.pending, List.filter_append]
    have := pending_cancel_opt hwf .cooldown_cb
    simp only [World.handle] at this
    rw [this]
    simp
  · intro h hh tm hm
    simp only [List.mem_append, List.mem_singleton] at hm
    rcases hm with hm | hm
    · have := (mem_cancel_opt hm).2
      rw [hh] at this
      intro he; exact this (by rw [he])
    · subst hm
      have := hwf.stored .cooldown_cb h hh
      simp only; omega

/-- C3 amended, at a freshly loaded window. -/
theorem send_command_accepted_witness :
    (send_command "next" (run World.init [.load])).sent =
      (run World.init [.load]).sent ++ [((run World.init [.load]).now, "next")] ∧
    (send_command "next" (run World.init [.load])).outbox_begin_calls =
      (run World.init [.load]).outbox_begin_calls + 1 ∧
    (send_command "next" (run World.init [.load])).s_network_ready = false ∧
    (send_command "next" (run World.init [.load])).pending .cooldown_cb =
      [⟨(run World.init [.load]).next_timer, (run World.init [.load]).now + 250,
        .cooldown_cb⟩] ∧
    (send_command "next" (run World.init [.load])).s_network_cooldown_timer =
      some (run World.init [.load]).next_timer ∧
    (∀ h, (run World.init [.load]).s_network_cooldown_timer = some h →
      ∀ tm ∈ (send_command "next" (run World.init [.load])).timers, tm.id ≠ h) :=
  send_command_accepted "next" (run World.init [.load]) (WF_run WF_init _)
    (by decide) (by decide) (by decide)

/-- C4 as stated fails: `previous` is sent at time 0; at time 250, with the window
loaded and the outbox accepting, the cooldown timer is due but not yet delivered, the
channel is still not ready, and `send_command` hands nothing to the transport. -/
theorem undelivered_cooldown_counterexample :
    (run World.init undelivered_trace).sent = [(0, "previous")] ∧
    (run World.init undelivered_trace).now = 0 + 250 ∧
    (run World.init undelivered_trace).s_window_loaded = true ∧
    (run World.init undelivered_trace).outbox_result = .APP_MSG_OK ∧
    (run World.init undelivered_trace).timers = [⟨1, 250, .cooldown_cb⟩] ∧
    (send_command "next" (run World.init undelivered_trace)).sent = [(0, "previous")] ∧
    (send_command "next" (run World.init undelivered_trace)).outbox_begin_calls = 1 := by
  decide

/-- C4, amended. Throttle recovery: after any events from the initial state in which
no window load follows a window unload, when the window is loaded, the outbox accepts
and every send lies at least 250 ms back, either the channel is ready and
`send_command` hands its command to the transport, or the cooldown timer is pending
and due and `send_command` hands its command over right after that timer's delivery;
in particular it does so whenever no due cooldown timer is left undelivered. -/
theorem throttle_recovery (a b : List Event) (ha : ∀ e ∈ a, e ≠ .unload)
    (hb : ∀ e ∈ b, e ≠ .load)
    (hl : (run World.init (a ++ b)).s_window_loaded = true)
    (hok : (run World.init (a ++ b)).outbox_result = .APP_MSG_OK)
    (hgap : ∀ e ∈ (run World.init (a ++ b)).sent, e.1 + 250 ≤ (run World.init (a ++ b)).now)
    (cmd : String) :
    ((run World.init (a ++ b)).s_network_ready = true →
      (send_command cmd (run World.init (a ++ b))).sent =
        (run World.init (a ++ b)).sent ++ [((run World.init (a ++ b)).now, cmd)]) ∧
    ((run World.init (a ++ b)).s_network_ready = false →
      ∃ tm ∈ (run World.init (a ++ b)).timers,
        tm.callback = .cooldown_cb ∧ tm.deadline ≤ (run World.init (a ++ b)).now ∧
        (send_command cmd (fire_timer tm.id (run World.init (a ++ b)))).sent =
          (run World.init (a ++ b)).sent ++ [((run World.init (a ++ b)).now, cmd)]) ∧
    ((∀ tm ∈ (run World.init (a ++ b)).timers, tm.callback = .cooldown_cb →
        (run World.init (a ++ b)).now < tm.deadline) →
      (send_command cmd (run World.init (a ++ b))).sent =
        (run World.init (a ++ b)).sent ++ [((run World.init (a ++ b)).now, cmd)]) := by
  have hWa : WF (run World.init a) := WF_run WF_init a
  have hRa : Recovering (run World.init a) :=
    Recovering_run WF_init (by intro h; cases h) a ha
  have hW : WF (run World.init (a ++ b)) := WF_run WF_init _
  have hR : Recovering (run World.init (a ++ b)) := by
    rw [run_append] at hl ⊢
    exact loaded_run_of_step Recovering
      (fun v e hv hp _ hu => Recovering_step hv hp e hu) hWa (fun _ => hRa) b hb hl
  have hdue : (run World.init (a ++ b)).s_network_ready = false →
      ∃ tm ∈ (run World.init (a ++ b)).timers,
        tm.callback = .cooldown_cb ∧ tm.deadline ≤ (run World.init (a ++ b)).now := by
    intro hr
    obtain ⟨tm, hm, hc, e, he, hd⟩ := hR hr
    exact ⟨tm, hm, hc, by have := hgap e he; omega⟩
  refine ⟨fun hr => send_command_sent cmd _ hl hr hok, ?_, ?_⟩
  · intro hr
    obtain ⟨tm, hm, hc, hd⟩ := hdue hr
    refine ⟨tm, hm, hc, hd, ?_⟩
    rw [fire_cooldown_timer hW hm hc hd]
    exact send_command_sent cmd _ hl rfl hok
  · intro hdel
    cases hr : (run World.init (a ++ b)).s_network_ready with
    | true => exact send_command_sent cmd _ hl hr hok
    | false =>
      obtain ⟨tm, hm, hc, hd⟩ := hdue hr
      have := hdel tm hm hc
      omega

/-- C4 amended, on two runs: 250 ms after a send the timer is due and the command
goes out right after its delivery; once it has been delivered the command goes out
at once. -/
theorem throttle_recovery_witness :
    (∃ tm ∈ (run World.init ([.load, .up] ++ [.tick 250])).timers,
      tm.callback = .cooldown_cb ∧
      tm.deadline ≤ (run World.init ([.load, .up] ++ [.tick 250])).now ∧
      (send_command "next"
        (fire_timer tm.id (run World.init ([.load, .up] ++ [.tick 250])))).sent =
        (run World.init ([.load, .up] ++ [.tick 250])).sent ++
          [((run World.init ([.load, .up] ++ [.tick 250])).now, "next")]) ∧
    (send_command "next" (run World.init ([.load, .up] ++ [.tick 250, .fire 1]))).sent =
      (run World.init ([.load, .up] ++ [.tick 250, .fire 1])).sent ++
        [((run World.init ([.load, .up] ++ [.tick 250, .fire 1])).now, "next")] :=
  ⟨(throttle_recovery [.load, .up] [.tick 250] (by decide) (by decide) (by decide)
      (by decide) (by decide) "next").2.1 (by decide),
   (throttle_recovery [.load, .up] [.tick 250, .fire 1] (by decide) (by decide) (by decide)
      (by decide) (by decide) "next").1 (by decide)⟩

/-- C5. Whatever fields a received message carries, `inbox_received_callback` leaves
the mode, the three timer handles, the pending timers, the handle counter and the
ready flag as they were. -/
theorem inbox_frame (msg : DictionaryIterator) (w : World) :
    (inbox_received_callback msg w).s_mode = w.s_mode ∧
    (inbox_received_callback msg w).s_zone_revert_timer = w.s_zone_revert_timer ∧
    (inbox_received_callback msg w).s_playpause_delay_timer = w.s_playpause_delay_timer ∧
    (inbox_received_callback msg w).s_network_cooldown_timer = w.s_network_cooldown_timer ∧
    (inbox_received_callback msg w).timers = w.timers ∧
    (inbox_received_callback msg w).next_timer = w.next_timer ∧
    (inbox_received_callback msg w).s_network_ready = w.s_network_ready := by
  obtain ⟨b, z, t, a, p, s, f, h⟩ := inbox_received_callback_eq msg w
  rw [h]
  exact ⟨rfl, rfl, rfl, rfl, rfl, rfl, rfl⟩

/-- C6. Idempotence of the inbound reducer: handling the same message twice in a row
gives the same state as handling it once. -/
theorem inbox_idem (msg : DictionaryIterator) (w : World) :
    inbox_received_callback msg (inbox_received_callback msg w) =
      inbox_received_callback msg w := by
  unfold inbox_received_callback
  cases hl : w.s_window_loaded
  · simp [hl]
  · cases dict_find msg KEY_ZONE_NAME <;> cases dict_find msg KEY_TRACK <;>
      cases dict_find msg KEY_ARTIST <;> cases dict_find msg KEY_IS_PLAYING <;>
      cases dict_find msg KEY_IS_FIXED <;>
      simp [hl, snprintf_snprintf, safe_set_text_idem, layer_mark_dirty_idem]

/-- C7. Auto-revert: in Track mode (handle discipline kept) a Select-Short at time
`t` sets the mode to Zone, calls `update_ui` and leaves exactly one Zone revert timer
pending, due at `t + 4000`. After any events that follow with no button event among
them, if that timer is still pending and due, its delivery sets the mode to Track,
leaves no Zone revert timer pending, clears the handle and calls `update_ui`. -/
theorem auto_revert (w : World) (hwf : WF w) (hm : w.s_mode = .MODE_TRACK) :
    (select_click_handler w).s_mode = .MODE_ZONE ∧
    (select_click_handler w).pending .zone_revert_callback =
      [⟨w.next_timer, w.now + 4000, .zone_revert_callback⟩] ∧
    (select_click_handler w).s_zone_revert_timer = some w.next_timer ∧
    (select_click_handler w).update_ui_calls = w.update_ui_calls + 1 ∧
    ∀ es : List Event, (∀ e ∈ es, e.is_button = false) →
      (⟨w.next_timer, w.now + 4000, .zone_revert_callback⟩ : AppTimer) ∈
        (run (select_click_handler w) es).timers →
      w.now + 4000 ≤ (run (select_click_handler w) es).now →
      (fire_timer w.next_timer (run (select_click_handler w) es)).s_mode = .MODE_TRACK ∧
      (fire_timer w.next_timer (run (select_click_handler w) es)).pending
        .zone_revert_callback = [] ∧
      (fire_timer w.next_timer (run (select_click_handler w) es)).s_zone_revert_timer = none ∧
      (fire_timer w.next_timer (run (select_click_handler w) es)).update_ui_calls =
        (run (select_click_handler w) es).update_ui_calls + 1 := by
  obtain ⟨z, hs⟩ := select_track_eq w hm
  have hp := pending_cancel_opt hwf .zone_revert_callback
  simp only [World.handle] at hp
  have hwf1 : WF (select_click_handler w) := WF_select_click_handler hwf
  have harm : Armed w.next_timer (select_click_handler w) := by
    rw [hs]
    refine ⟨Nat.lt_succ_self _, ?_⟩
    intro x hx hid
    refine ⟨?_, rfl⟩
    simp only [List.mem_append, List.mem_singleton] at hx
    rcases hx with hx | hx
    · have := hwf.fresh x (mem_cancel_opt hx).1
      omega
    · subst hx; rfl
  refine ⟨by rw [hs], ?_, by rw [hs], by rw [hs], ?_⟩
  · rw [hs]
    simp only [World.pending, List.filter_append, hp]
    simp
  · intro es hes hmem hdue
    have hA := Armed_run hwf1 harm es hes
    have hW := WF_run hwf1 es
    exact fire_zone_timer hW hmem rfl hdue (hA.2 _ hmem rfl).2

/-- C7 from the initial state: Select at time 0, then 4000 ms without input. -/
theorem auto_revert_witness :
    (select_click_handler World.init).s_mode = .MODE_ZONE ∧
    (select_click_handler World.init).pending .zone_revert_callback =
      [⟨1, 4000, .zone_revert_callback⟩] ∧
    (fire_timer 1 (run (select_click_handler World.init) [.tick 4000])).s_mode =
      .MODE_TRACK ∧
    (fire_timer 1 (run (select_click_handler World.init) [.tick 4000])).pending
      .zone_revert_callback = [] :=
  ⟨(auto_revert World.init WF_init rfl).1,
   (auto_revert World.init WF_init rfl).2.1,
   ((auto_revert World.init WF_init rfl).2.2.2.2 [.tick 4000] (by decide) (by decide)
      (by decide)).1,
   ((auto_revert World.init WF_init rfl).2.2.2.2 [.tick 4000] (by decide) (by decide)
      (by decide)).2.1⟩

/-- C8. Stale timer fire: when the mode is not Zone, `zone_revert_callback` only
clears the handle variable, so the mode stays, `update_ui` is not called and nothing
reaches the transport; and whenever the callback changes the mode, the mode was Zone
and becomes Track. -/
theorem zone_revert_callback_stale (w : World) :
    (w.s_mode ≠ .MODE_ZONE →
      zone_revert_callback w = { w with s_zone_revert_timer := none } ∧
      (zone_revert_callback w).s_mode = w.s_mode ∧
      (zone_revert_callback w).update_ui_calls = w.update_ui_calls ∧
      (zone_revert_callback w).sent = w.sent ∧
      (zone_revert_callback w).outbox_begin_calls = w.outbox_begin_calls) ∧
    ((zone_revert_callback w).s_mode ≠ w.s_mode →
      w.s_mode = .MODE_ZONE ∧ (zone_revert_callback w).s_mode = .MODE_TRACK) := by
  constructor
  · intro h
    have : zone_revert_callback w = { w with s_zone_revert_timer := none } := by
      simp [zone_revert_callback, h]
    rw [this]
    exact ⟨rfl, rfl, rfl, rfl, rfl⟩
  · intro h
    by_cases hm : w.s_mode = .MODE_ZONE
    · refine ⟨hm, ?_⟩
      obtain ⟨z, hz⟩ := update_ui_eq
        { w with s_zone_revert_timer := none, s_mode := .MODE_TRACK }
      simp only [zone_revert_callback, hm, if_true]
      rw [hz]
    · exfalso
      apply h
      simp [zone_revert_callback, hm]

/-- C8 at concrete states: a stale fire in the initial (Track) state, and a fire in
Zone mode. -/
theorem zone_revert_callback_stale_witness :
    (zone_revert_callback World.init = { World.init with s_zone_revert_timer := none } ∧
      (zone_revert_callback World.init).s_mode = World.init.s_mode ∧
      (zone_revert_callback World.init).update_ui_calls = World.init.update_ui_calls ∧
      (zone_revert_callback World.init).sent = World.init.sent ∧
      (zone_revert_callback World.init).outbox_begin_calls = World.init.outbox_begin_calls) ∧
    (zone_world.s_mode = .MODE_ZONE ∧ (zone_revert_callback zone_world).s_mode = .MODE_TRACK) :=
  ⟨(zone_revert_callback_stale World.init).1 (by decide),
   (zone_revert_callback_stale zone_world).2 (by decide)⟩

/-- C9. Zone-mode navigation: in Zone mode (handle discipline kept), Up and Down are
`reset_zone_timer` followed by `send_command` of `prev_zone` resp. `next_zone`; after
either the mode is still Zone, the timer the old handle referred to is gone and exactly
one Zone revert timer is pending, due 4000 ms after the press; a command the throttle
accepts is handed to the transport, and when the throttle drops it the handler is
just the timer reset. -/
theorem zone_navigation (w : World) (hwf : WF w) (hm : w.s_mode = .MODE_ZONE) :
    up_click_handler w = send_command "prev_zone" (reset_zone_timer w) ∧
    down_click_handler w = send_command "next_zone" (reset_zone_timer w) ∧
    (∀ w', w' = up_click_handler w ∨ w' = down_click_handler w →
      w'.s_mode = .MODE_ZONE ∧
      w'.pending .zone_revert_callback =
        [⟨w.next_timer, w.now + 4000, .zone_revert_callback⟩] ∧
      w'.s_zone_revert_timer = some w.next_timer ∧
      (∀ h, w.s_zone_revert_timer = some h → ∀ tm ∈ w'.timers, tm.id ≠ h)) ∧
    (w.s_window_loaded = true → w.s_network_ready = true →
      w.outbox_result = .APP_MSG_OK →
      (up_click_handler w).sent = w.sent ++ [(w.now, "prev_zone")] ∧
      (down_click_handler w).sent = w.sent ++ [(w.now, "next_zone")]) ∧
    (w.s_network_ready = false →
      up_click_handler w = reset_zone_timer w ∧
      down_click_handler w = reset_zone_timer w) := by
  have hup : up_click_handler w = send_command "prev_zone" (reset_zone_timer w) := by
    simp [up_click_handler, hm]
  have hdown : down_click_handler w = send_command "next_zone" (reset_zone_timer w) := by
    simp [down_click_handler, hm]
  refine ⟨hup, hdown, ?_, ?_, ?_⟩
  · intro w' hw'
    rcases hw' with h | h
    · rw [h, hup]
      have := send_after_reset "prev_zone" w hwf
      rw [hm] at this
      exact this
    · rw [h, hdown]
      have := send_after_reset "next_zone" w hwf
      rw [hm] at this
      exact this
  · intro hl hr hok
    rw [hup, hdown]
    have e : ∀ cmd, (send_command cmd (reset_zone_timer w)).sent =
        w.sent ++ [(w.now, cmd)] := by
      intro cmd
      rw [send_command_sent cmd _ (by rw [reset_zone_timer_eq]; exact hl)
        (by rw [reset_zone_timer_eq]; exact hr) (by rw [reset_zone_timer_eq]; exact hok)]
      rw [reset_zone_timer_eq]
    exact ⟨e _, e _⟩
  · intro hr
    rw [hup, hdown]
    have e : ∀ cmd, send_command cmd (reset_zone_timer w) = reset_zone_timer w := by
      intro cmd
      rw [send_command_eq]
      have : (reset_zone_timer w).s_network_ready = false := by
        rw [reset_zone_timer_eq]; exact hr
      simp [this]
    exact ⟨e _, e _⟩

/-- C9 in Zone mode, 1000 ms after entering it: Up sends `prev_zone` and moves the
deadline from 4000 to 5000. -/
theorem zone_navigation_witness :
    (up_click_handler zone_world).s_mode = .MODE_ZONE ∧
    (up_click_handler zone_world).pending .zone_revert_callback =
      [⟨2, 5000, .zone_revert_callback⟩] ∧
    zone_world.pending .zone_revert_callback = [⟨1, 4000, .zone_revert_callback⟩] ∧
    (up_click_handler zone_world).sent = [(1000, "prev_zone")] :=
  ⟨((zone_navigation zone_world (WF_run WF_init _) (by decide)).2.2.1
      (up_click_handler zone_world) (Or.inl rfl)).1,
   ((zone_navigation zone_world (WF_run WF_init _) (by decide)).2.2.1
      (up_click_handler zone_world) (Or.inl rfl)).2.1,
   by decide,
   ((zone_navigation zone_world (WF_run WF_init _) (by decide)).2.2.2.1
      (by decide) (by decide) (by decide)).1⟩

/-- C10. Select-Short in Zone mode (handle discipline kept): the handler is
`cancel_zone_timer`, then `send_command` of `status`, then the mode set to Track,
then `update_ui`; afterwards no Zone revert timer is pending and the handle is clear,
and a command the throttle accepts is handed to the transport. Consequently two
Select-Short presses in a row from Track end in Track with no Zone timer pending. -/
theorem select_in_zone :
    (∀ w : World, WF w → w.s_mode = .MODE_ZONE →
      select_click_handler w =
        update_ui { (send_command "status" (cancel_zone_timer w)) with
                    s_mode := .MODE_TRACK } ∧
      (select_click_handler w).s_mode = .MODE_TRACK ∧
      (select_click_handler w).pending .zone_revert_callback = [] ∧
      (select_click_handler w).s_zone_revert_timer = none ∧
      (select_click_handler w).update_ui_calls = w.update_ui_calls + 1 ∧
      (w.s_window_loaded = true → w.s_network_ready = true →
        w.outbox_result = .APP_MSG_OK →
        (select_click_handler w).sent = w.sent ++ [(w.now, "status")])) ∧
    (∀ w : World, WF w → w.s_mode = .MODE_TRACK →
      (select_click_handler (select_click_handler w)).s_mode = .MODE_TRACK ∧
      (select_click_handler (select_click_handler w)).pending .zone_revert_callback = [] ∧
      (select_click_handler (select_click_handler w)).s_zone_revert_timer = none) := by
  have part1 : ∀ w : World, WF w → w.s_mode = .MODE_ZONE →
      select_click_handler w =
        update_ui { (send_command "status" (cancel_zone_timer w)) with
                    s_mode := .MODE_TRACK } ∧
      (select_click_handler w).s_mode = .MODE_TRACK ∧
      (select_click_handler w).pending .zone_revert_callback = [] ∧
      (select_click_handler w).s_zone_revert_timer = none ∧
      (select_click_handler w).update_ui_calls = w.update_ui_calls + 1 ∧
      (w.s_window_loaded = true → w.s_network_ready = true →
        w.outbox_result = .APP_MSG_OK →
        (select_click_handler w).sent = w.sent ++ [(w.now, "status")]) := by
    intro w hwf hm
    have he : select_click_handler w =
        update_ui { (send_command "status" (cancel_zone_timer w)) with
                    s_mode := .MODE_TRACK } := by
      simp [select_click_handler, hm]
    obtain ⟨z, hz⟩ := update_ui_eq { (send_command "status" (cancel_zone_timer w)) with
                    s_mode := .MODE_TRACK }
    obtain ⟨-, f2, f3, -, -, f6⟩ := send_command_frame "status" (cancel_zone_timer w)
    have hp := pending_cancel_opt hwf .zone_revert_callback
    simp only [World.handle] at hp
    refine ⟨he, ?_, ?_, ?_, ?_, ?_⟩
    · rw [he, hz]
    · rw [he, hz]
      simp only [World.pending]
      rw [List.filter_eq_nil_iff]
      intro x hx hc
      have hc' : x.callback = .zone_revert_callback := by simpa using hc
      rcases f6 x hx with h | h
      · rw [cancel_zone_timer_eq] at h
        have : x ∈ (cancel_opt w.s_zone_revert_timer w.timers).filter
            (fun tm => tm.callback = .zone_revert_callback) :=
          List.mem_filter.mpr ⟨h, by simpa using hc'⟩
        rw [hp] at this
        cases this
      · rw [h.2] at hc'; cases hc'
    · rw [he, hz]
      show (send_command "status" (cancel_zone_timer w)).s_zone_revert_timer = none
      rw [f2, cancel_zone_timer_eq]
    · rw [he, hz]
      show (send_command "status" (cancel_zone_timer w)).update_ui_calls + 1 = _
      rw [f3, cancel_zone_timer_eq]
    · intro hl hr hok
      rw [he, hz]
      show (send_command "status" (cancel_zone_timer w)).sent = _
      rw [send_command_sent _ _ (by rw [cancel_zone_timer_eq]; exact hl)
        (by rw [cancel_zone_timer_eq]; exact hr) (by rw [cancel_zone_timer_eq]; exact hok)]
      rw [cancel_zone_timer_eq]
  refine ⟨part1, ?_⟩
  intro w hwf hm
  have hz : (select_click_handler w).s_mode = .MODE_ZONE := by
    obtain ⟨z, hz⟩ := update_ui_eq (reset_zone_timer { w with s_mode := .MODE_ZONE })
    simp only [select_click_handler, hm, if_true]
    rw [hz, reset_zone_timer_eq]
  obtain ⟨-, h2, h3, h4, -⟩ := part1 _ (WF_select_click_handler hwf) hz
  exact ⟨h2, h3, h4⟩

/-- C10 at concrete states: Select in Zone mode, and two presses from the freshly
loaded window. -/
theorem select_in_zone_witness :
    zone_world.s_mode = .MODE_ZONE ∧
    (select_click_handler zone_world).s_mode = .MODE_TRACK ∧
    (select_click_handler zone_world).sent = zone_world.sent ++ [(zone_world.now, "status")] ∧
    (run World.init [.load]).s_mode = .MODE_TRACK ∧
    (select_click_handler (select_click_handler (run World.init [.load]))).pending
      .zone_revert_callback = [] :=
  ⟨by decide,
   (select_in_zone.1 zone_world (WF_run WF_init _) (by decide)).2.1,
   (select_in_zone.1 zone_world (WF_run WF_init _) (by decide)).2.2.2.2.2
     (by decide) (by decide) (by decide),
   by decide,
   (select_in_zone.2 (run World.init [.load]) (WF_run WF_init _) (by decide)).2.1⟩

/-- C11. Long-press debounce (handle discipline kept). Every Select-Long press keeps
the mode, cancels the timer the debounce handle referred to and leaves exactly one
debounce timer pending, due 100 ms after the press. Along a burst of presses each
less than 100 ms after the previous one, the mode stays, nothing reaches the
transport and no debounce timer is ever due, so none is delivered; at the end exactly
one is pending, due 100 ms after the last press; its delivery is the one
`send_command` of `playpause`, after which no debounce timer is pending. -/
theorem long_press_debounce (w : World) (hwf : WF w) (gaps : List Nat)
    (hg : ∀ d ∈ gaps, d < 100) :
    (∀ v : World, WF v →
      (select_long_click_handler v).s_mode = v.s_mode ∧
      (∀ h, v.s_playpause_delay_timer = some h →
        ∀ tm ∈ (select_long_click_handler v).timers, tm.id ≠ h) ∧
      (select_long_click_handler v).pending .send_playpause_cb =
        [⟨v.next_timer, v.now + 100, .send_playpause_cb⟩]) ∧
    (run w (long_presses gaps)).s_mode = w.s_mode ∧
    (run w (long_presses gaps)).sent = w.sent ∧
    (run w (long_presses gaps)).outbox_begin_calls = w.outbox_begin_calls ∧
    (∀ es : List Event, es <+: long_presses gaps → es ≠ [] →
      ∀ tm ∈ (run w es).pending .send_playpause_cb, (run w es).now < tm.deadline) ∧
    ∃ id, (run w (long_presses gaps)).pending .send_playpause_cb =
        [⟨id, w.now + gaps.sum + 100, .send_playpause_cb⟩] ∧
      ∀ d, 100 ≤ d →
        fire_timer id (step (run w (long_presses gaps)) (.tick d)) =
          send_command "playpause"
            { (step (run w (long_presses gaps)) (.tick d)) with
              timers := (run w (long_presses gaps)).timers.filter (fun x => x.id != id),
              s_playpause_delay_timer := none } ∧
        (fire_timer id (step (run w (long_presses gaps)) (.tick d))).pending
          .send_playpause_cb = [] := by
  obtain ⟨e1, e2, e3, e4, id, -, e6⟩ := long_presses_end gaps w hwf
  refine ⟨?_, e1, e2, e3, ?_, id, e6, ?_⟩
  · intro v hv
    obtain ⟨h1, -, -, -, -, h6, h7⟩ := select_long_effect v hv
    exact ⟨h1, h7, h6⟩
  · intro es hpre hne
    exact long_presses_not_due gaps hg w hwf es hpre hne
  · intro d hd
    have hW : WF (step (run w (long_presses gaps)) (.tick d)) := WF_step (WF_run hwf _) _
    have hm : (⟨id, w.now + gaps.sum + 100, .send_playpause_cb⟩ : AppTimer) ∈
        (step (run w (long_presses gaps)) (.tick d)).timers := by
      have : (⟨id, w.now + gaps.sum + 100, .send_playpause_cb⟩ : AppTimer) ∈
          (run w (long_presses gaps)).pending .send_playpause_cb := by
        rw [e6]; exact List.mem_singleton_self _
      exact (List.mem_filter.mp this).1
    have hdue : w.now + gaps.sum + 100 ≤ (step (run w (long_presses gaps)) (.tick d)).now := by
      show w.now + gaps.sum + 100 ≤ (run w (long_presses gaps)).now + d
      rw [e4]; omega
    exact fire_playpause_timer hW hm rfl hdue

/-- C11 on the specification's scenario: two presses 50 ms apart in Track mode give
one `playpause`, sent 100 ms after the second press; the first timer never fires. -/
theorem long_press_debounce_witness :
    (run loaded_world (long_presses [50])).s_mode = loaded_world.s_mode ∧
    (run loaded_world (long_presses [50])).sent = loaded_world.sent ∧
    (∀ tm ∈ (run loaded_world [.select_long, .tick 50]).pending .send_playpause_cb,
      (run loaded_world [.select_long, .tick 50]).now < tm.deadline) ∧
    (run loaded_world (long_presses [50])).pending .send_playpause_cb =
      [⟨2, 150, .send_playpause_cb⟩] ∧
    (run loaded_world [.select_long, .tick 50, .select_long, .tick 100, .fire 1,
      .fire 2]).sent = [(150, "playpause")] :=
  ⟨(long_press_debounce loaded_world (WF_run WF_init _) [50] (by decide)).2.1,
   (long_press_debounce loaded_world (WF_run WF_init _) [50] (by decide)).2.2.1,
   (long_press_debounce loaded_world (WF_run WF_init _) [50] (by decide)).2.2.2.2.1
     [.select_long, .tick 50] (by decide) (by decide),
   by decide, by decide⟩

/-- C12 as stated fails: Up on a freshly loaded window sends `previous` and does not
call `update_ui`. -/
theorem up_no_redraw_counterexample :
    (up_click_handler loaded_world).sent = [(0, "previous")] ∧
    (up_click_handler loaded_world).update_ui_calls = loaded_world.update_ui_calls ∧
    (down_click_handler loaded_world).update_ui_calls = loaded_world.update_ui_calls ∧
    (select_long_click_handler loaded_world).update_ui_calls =
      loaded_world.update_ui_calls := by
  decide

/-- C12, amended. In every state the Select-Short handler calls `update_ui` once,
after handling the event; the Up, Down and Select-Long handlers never call it. -/
theorem redraw_requests (w : World) :
    (select_click_handler w).update_ui_calls = w.update_ui_calls + 1 ∧
    (up_click_handler w).update_ui_calls = w.update_ui_calls ∧
    (down_click_handler w).update_ui_calls = w.update_ui_calls ∧
    (select_long_click_handler w).update_ui_calls = w.update_ui_calls := by
  refine ⟨?_, ?_, ?_, ?_⟩
  · unfold select_click_handler
    split
    · obtain ⟨z, hz⟩ := update_ui_eq (reset_zone_timer { w with s_mode := .MODE_ZONE })
      rw [hz, reset_zone_timer_eq]
    · split
      · obtain ⟨z, hz⟩ := update_ui_eq
          { (send_command "status" (cancel_zone_timer w)) with s_mode := .MODE_TRACK }
        obtain ⟨-, -, f3, -⟩ := send_command_frame "status" (cancel_zone_timer w)
        rw [hz]
        show (send_command "status" (cancel_zone_timer w)).update_ui_calls + 1 = _
        rw [f3, cancel_zone_timer_eq]
      · obtain ⟨z, hz⟩ := update_ui_eq w
        rw [hz]
  · unfold up_click_handler
    split
    · exact (send_command_frame _ _).2.2.1
    · split
      · rw [(send_command_frame _ _).2.2.1, reset_zone_timer_eq]
      · rfl
  · unfold down_click_handler
    split
    · exact (send_command_frame _ _).2.2.1
    · split
      · rw [(send_command_frame _ _).2.2.1, reset_zone_timer_eq]
      · rfl
  · rw [select_long_click_handler_eq]
    simp only
    split
    · rw [reset_zone_timer_eq]
    · rfl

/-- C13 as stated fails: in the initial state the window is not loaded, yet
Select-Short switches to Zone mode and arms the Zone timer, Select-Long vibrates and
arms the debounce timer, and Up in Zone mode re-arms the Zone timer. -/
theorem detached_select_counterexample :
    World.init.s_window_loaded = false ∧
    (select_click_handler World.init).s_mode = .MODE_ZONE ∧
    (select_click_handler World.init).timers = [⟨1, 4000, .zone_revert_callback⟩] ∧
    (select_long_click_handler World.init).timers = [⟨1, 100, .send_playpause_cb⟩] ∧
    (select_click_handler World.init).s_window_loaded = false ∧
    (up_click_handler (select_click_handler World.init)).timers =
      [⟨2, 4000, .zone_revert_callback⟩] := by
  decide

/-- C13, amended. While the window is not loaded, no button handler hands anything to
the transport, touches a layer or the throttle; Up, Down and Select-Long keep the
mode. Up and Down leave the whole state unchanged in Track mode and are just
`reset_zone_timer` in Zone mode; Select-Long only vibrates and re-arms the debounce
timer, and in Zone mode resets the Zone timer; Select-Short only switches the mode,
arming the Zone timer when it enters Zone and cancelling it when it leaves, and makes
its call of `update_ui`, which then does nothing. -/
theorem detached_buttons (w : World) (hl : w.s_window_loaded = false) :
    (Untouched w (up_click_handler w) ∧
      Untouched w (down_click_handler w) ∧
      Untouched w (select_click_handler w) ∧
      Untouched w (select_long_click_handler w)) ∧
    ((up_click_handler w).s_mode = w.s_mode ∧
      (down_click_handler w).s_mode = w.s_mode ∧
      (select_long_click_handler w).s_mode = w.s_mode) ∧
    (w.s_mode = .MODE_TRACK → up_click_handler w = w ∧ down_click_handler w = w) ∧
    (w.s_mode = .MODE_ZONE →
      up_click_handler w = reset_zone_timer w ∧ down_click_handler w = reset_zone_timer w) ∧
    (w.s_mode = .MODE_TRACK →
      select_long_click_handler w =
        { w with
          vibes := w.vibes + 1,
          timers := cancel_opt w.s_playpause_delay_timer w.timers ++
            [⟨w.next_timer, w.now + 100, .send_playpause_cb⟩],
          next_timer := w.next_timer + 1,
          s_playpause_delay_timer := some w.next_timer }) ∧
    (w.s_mode = .MODE_ZONE →
      select_long_click_handler w =
        reset_zone_timer
          { w with
            vibes := w.vibes + 1,
            timers := cancel_opt w.s_playpause_delay_timer w.timers ++
              [⟨w.next_timer, w.now + 100, .send_playpause_cb⟩],
            next_timer := w.next_timer + 1,
            s_playpause_delay_timer := some w.next_timer }) ∧
    (w.s_mode = .MODE_TRACK →
      select_click_handler w =
        { (reset_zone_timer { w with s_mode := .MODE_ZONE }) with
          update_ui_calls := w.update_ui_calls + 1 }) ∧
    (w.s_mode = .MODE_ZONE →
      select_click_handler w =
        { (cancel_zone_timer w) with
          s_mode := .MODE_TRACK, update_ui_calls := w.update_ui_calls + 1 }) := by
  have hrefl : Untouched w w := ⟨rfl, rfl, rfl, rfl, rfl, rfl, rfl, rfl, rfl⟩
  have hreset : Untouched w (reset_zone_timer w) := by
    rw [reset_zone_timer_eq]
    exact ⟨rfl, rfl, rfl, rfl, rfl, rfl, rfl, rfl, rfl⟩
  have hrl : (reset_zone_timer w).s_window_loaded = false := by
    rw [reset_zone_timer_eq]; exact hl
  have hcl : (cancel_zone_timer w).s_window_loaded = false := by
    rw [cancel_zone_timer_eq]; exact hl
  have hupT : w.s_mode = .MODE_TRACK → up_click_handler w = w ∧ down_click_handler w = w :=
    fun hm => ⟨by simp [up_click_handler, hm, send_command_unloaded _ _ hl],
      by simp [down_click_handler, hm, send_command_unloaded _ _ hl]⟩
  have hupZ : w.s_mode = .MODE_ZONE →
      up_click_handler w = reset_zone_timer w ∧ down_click_handler w = reset_zone_timer w :=
    fun hm => ⟨by simp [up_click_handler, hm, send_command_unloaded _ _ hrl],
      by simp [down_click_handler, hm, send_command_unloaded _ _ hrl]⟩
  have hselT : w.s_mode = .MODE_TRACK →
      select_click_handler w =
        { (reset_zone_timer { w with s_mode := .MODE_ZONE }) with
          update_ui_calls := w.update_ui_calls + 1 } := by
    intro hm
    simp only [select_click_handler, hm, if_true]
    rw [update_ui_unloaded _ (by rw [reset_zone_timer_eq]; exact hl), reset_zone_timer_eq]
  have hselZ : w.s_mode = .MODE_ZONE →
      select_click_handler w =
        { (cancel_zone_timer w) with
          s_mode := .MODE_TRACK, update_ui_calls := w.update_ui_calls + 1 } := by
    intro hm
    have e1 : select_click_handler w =
        update_ui { (send_command "status" (cancel_zone_timer w)) with
                    s_mode := .MODE_TRACK } := by
      simp [select_click_handler, hm]
    rw [e1, send_command_unloaded _ _ hcl,
      update_ui_unloaded { (cancel_zone_timer w) with s_mode := .MODE_TRACK } hcl,
      cancel_zone_timer_eq]
  have hmode : ∀ v : World, v.s_mode = .MODE_TRACK ∨ v.s_mode = .MODE_ZONE := by
    intro v; cases v.s_mode <;> simp
  refine ⟨⟨?_, ?_, ?_, ?_⟩, ⟨?_, ?_, ?_⟩, hupT, hupZ, ?_, ?_, hselT, hselZ⟩
  · rcases hmode w with hm | hm
    · rw [(hupT hm).1]; exact hrefl
    · rw [(hupZ hm).1]; exact hreset
  · rcases hmode w with hm | hm
    · rw [(hupT hm).2]; exact hrefl
    · rw [(hupZ hm).2]; exact hreset
  · rcases hmode w with hm | hm
    · rw [hselT hm, reset_zone_timer_eq]
      exact ⟨rfl, rfl, rfl, rfl, rfl, rfl, rfl, rfl, rfl⟩
    · rw [hselZ hm, cancel_zone_timer_eq]
      exact ⟨rfl, rfl, rfl, rfl, rfl, rfl, rfl, rfl, rfl⟩
  · rw [select_long_click_handler_eq]
    simp only
    split
    · rw [reset_zone_timer_eq]
      exact ⟨rfl, rfl, rfl, rfl, rfl, rfl, rfl, rfl, rfl⟩
    · exact ⟨rfl, rfl, rfl, rfl, rfl, rfl, rfl, rfl, rfl⟩
  · rcases hmode w with hm | hm
    · rw [(hupT hm).1]
    · rw [(hupZ hm).1, reset_zone_timer_eq]
  · rcases hmode w with hm | hm
    · rw [(hupT hm).2]
    · rw [(hupZ hm).2, reset_zone_timer_eq]
  · exact (select_long_effect_mode w)
  · intro hm
    rw [select_long_click_handler_eq]
    simp [hm]
  · intro hm
    rw [select_long_click_handler_eq]
    simp [hm]

/-- C13 amended, at the initial state and at a detached state in Zone mode. -/
theorem detached_buttons_witness :
    Untouched World.init (select_click_handler World.init) ∧
    (select_long_click_handler World.init).s_mode = World.init.s_mode ∧
    up_click_handler World.init = World.init ∧
    down_click_handler World.init = World.init ∧
    up_click_handler (select_click_handler World.init) =
      reset_zone_timer (select_click_handler World.init) :=
  ⟨(detached_buttons World.init rfl).1.2.2.1,
   (detached_buttons World.init rfl).2.1.2.2,
   ((detached_buttons World.init rfl).2.2.1 rfl).1,
   ((detached_buttons World.init rfl).2.2.1 rfl).2,
   ((detached_buttons (select_click_handler World.init) (by decide)).2.2.2.1
      (by decide)).1⟩

/-- C15. Consistent highlighting: after any events from the initial state in which
no button event comes before a window load and no window load comes after it,
whenever the window is loaded the zone line exists and is highlighted exactly when
the mode is Zone. In particular a message carrying only a zone name, received in
Track mode with the zone line un-highlighted, puts the name into the buffer the line
shows, leaves the line un-highlighted and leaves the mode Track. -/
theorem consistent_highlighting :
    (∀ pre es : List Event, (∀ e ∈ pre, e.is_button = false) → (∀ e ∈ es, e ≠ .load) →
      (run World.init (pre ++ .load :: es)).s_window_loaded = true →
      ∃ l, (run World.init (pre ++ .load :: es)).s_zone_layer = some l ∧
        (l.highlighted = true ↔ (run World.init (pre ++ .load :: es)).s_mode = .MODE_ZONE)) ∧
    (∀ (v : World) (l : TextLayer) (n : Nat) (name : List Nat),
      v.s_window_loaded = true → v.s_mode = .MODE_TRACK → v.s_zone_layer = some l →
      l.highlighted = false →
      (inbox_received_callback [⟨KEY_ZONE_NAME, n, name⟩] v).s_zone_buf =
        snprintf v.s_zone_buf 64 name ∧
      (inbox_received_callback [⟨KEY_ZONE_NAME, n, name⟩] v).s_zone_layer =
        some ⟨.zone_buf, l.background_color, l.text_color⟩ ∧
      (∀ l', (inbox_received_callback [⟨KEY_ZONE_NAME, n, name⟩] v).s_zone_layer = some l' →
        l'.highlighted = false) ∧
      (inbox_received_callback [⟨KEY_ZONE_NAME, n, name⟩] v).s_mode = .MODE_TRACK) := by
  constructor
  · intro pre es hpre hes hl
    have e : run World.init (pre ++ .load :: es) =
        run (step (run World.init pre) .load) es := by
      rw [run_append]; rfl
    rw [e] at hl ⊢
    have hm : (run World.init pre).s_mode = .MODE_TRACK := run_mode_track rfl pre hpre
    have h0 : Styled (step (run World.init pre) .load) :=
      ⟨rfl, ⟨.static "Connecting...", .GColorClear, .GColorWhite⟩, rfl, by
        show (false = true) ↔ (run World.init pre).s_mode = .MODE_ZONE
        rw [hm]; simp⟩
    have hS : Styled (run (step (run World.init pre) .load) es) :=
      loaded_run_of_step Styled (fun v e _ hp h1 h2 => Styled_step hp e ⟨h1, h2⟩)
        (WF_step (WF_run WF_init pre) .load) (fun _ => h0) es hes hl
    exact hS.2
  · intro v l n name hl hm hz hh
    exact zone_name_in_track v hl hm l hz hh n name

/-- C15 on two runs: a message arrives before the load and Select-Short is pressed
after it; a zone name arrives on the freshly loaded window. -/
theorem consistent_highlighting_witness :
    (∃ l, (run World.init ([.inbox [], .tick 5] ++ .load :: [.select])).s_zone_layer =
        some l ∧
      (l.highlighted = true ↔
        (run World.init ([.inbox [], .tick 5] ++ .load :: [.select])).s_mode = .MODE_ZONE)) ∧
    (inbox_received_callback [⟨KEY_ZONE_NAME, 4, [75, 105, 116, 0]⟩] loaded_world).s_mode =
      .MODE_TRACK :=
  ⟨consistent_highlighting.1 [.inbox [], .tick 5] [.select] (by decide) (by decide)
      (by decide),
   (consistent_highlighting.2 loaded_world
      ⟨.static "Connecting...", .GColorClear, .GColorWhite⟩ 4 [75, 105, 116, 0]
      (by decide) (by decide) (by decide) (by decide)).2.2.2⟩

/-- C16. Zone name bound: with the window loaded, a message whose zone name tuple
holds the NUL-free bytes `s` and a terminator leaves in `s_zone_buf` the first
`min |s| 63` bytes of `s` followed by a NUL and the old bytes beyond; the stored C
string is `s` cut to 63 bytes, so it is at most 63 long and equal to `s` when
`|s| ≤ 63`, and a 64-byte buffer stays 64 bytes. -/
theorem zone_name_bound (w : World) (msg : DictionaryIterator) (t : Tuple)
    (s rest : List Nat) (hl : w.s_window_loaded = true)
    (hf : dict_find msg KEY_ZONE_NAME = some t) (hv : t.value = s ++ 0 :: rest)
    (hs : ∀ b ∈ s, b ≠ 0) :
    (inbox_received_callback msg w).s_zone_buf =
      s.take 63 ++ 0 :: w.s_zone_buf.drop (min s.length 63 + 1) ∧
    cstring (inbox_received_callback msg w).s_zone_buf = s.take 63 ∧
    (cstring (inbox_received_callback msg w).s_zone_buf).length ≤ 63 ∧
    (s.length ≤ 63 → cstring (inbox_received_callback msg w).s_zone_buf = s) ∧
    (w.s_zone_buf.length = 64 → (inbox_received_callback msg w).s_zone_buf.length = 64) := by
  have hb : (inbox_received_callback msg w).s_zone_buf =
      s.take 63 ++ 0 :: w.s_zone_buf.drop (min s.length 63 + 1) := by
    rw [inbox_zone_buf msg w t hl hf, hv]
    simp only [snprintf, cstring_append_nul s rest hs]
    simp [Nat.min_comm]
  have hc : cstring (inbox_received_callback msg w).s_zone_buf = s.take 63 := by
    rw [hb]
    exact cstring_append_nul _ _ (fun b hb => hs b (List.mem_of_mem_take hb))
  refine ⟨hb, hc, ?_, ?_, ?_⟩
  · rw [hc, List.length_take]
    exact Nat.min_le_left _ _
  · intro hle
    rw [hc, List.take_of_length_le hle]
  · intro h64
    rw [hb]
    simp only [List.length_append, List.length_take, List.length_cons, List.length_drop, h64]
    omega

/-- C16 on a short name and on a 70-byte name. -/
theorem zone_name_bound_witness :
    cstring (inbox_received_callback [⟨KEY_ZONE_NAME, 4, [75, 105, 116, 0]⟩]
      loaded_world).s_zone_buf = [75, 105, 116] ∧
    (cstring (inbox_received_callback
      [⟨KEY_ZONE_NAME, 71, List.replicate 70 65 ++ 0 :: []⟩] loaded_world).s_zone_buf).length
        ≤ 63 ∧
    (inbox_received_callback
      [⟨KEY_ZONE_NAME, 71, List.replicate 70 65 ++ 0 :: []⟩] loaded_world).s_zone_buf.length
        = 64 :=
  ⟨(zone_name_bound loaded_world [⟨KEY_ZONE_NAME, 4, [75, 105, 116, 0]⟩]
      ⟨KEY_ZONE_NAME, 4, [75, 105, 116, 0]⟩ [75, 105, 116] [] (by decide) (by decide)
      (by decide) (by decide)).2.2.2.1 (by decide),
   (zone_name_bound loaded_world [⟨KEY_ZONE_NAME, 71, List.replicate 70 65 ++ 0 :: []⟩]
      ⟨KEY_ZONE_NAME, 71, List.replicate 70 65 ++ 0 :: []⟩ (List.replicate 70 65) []
      (by decide) (by decide) rfl (by decide)).2.2.1,
   (zone_name_bound loaded_world [⟨KEY_ZONE_NAME, 71, List.replicate 70 65 ++ 0 :: []⟩]
      ⟨KEY_ZONE_NAME, 71, List.replicate 70 65 ++ 0 :: []⟩ (List.replicate 70 65) []
      (by decide) (by decide) rfl (by decide)).2.2.2.2 (by decide)⟩

/-- C17. Tuple decoder: `get_tuple_int` gives -1 for an absent tuple, the `int8`
member for length 1, the `int16` member for length 2 and the `int32` member for
length 4 and for every other length; each member is the sign-extended value of its
bytes; hence decoding the 1-, 2- or 4-byte encoding of any integer in the int8, int16
or int32 range gives that integer back. -/
theorem tuple_decoder :
    get_tuple_int none = -1 ∧
    (∀ t : Tuple, t.length = 1 → get_tuple_int (some t) = t.int8) ∧
    (∀ t : Tuple, t.length = 2 → get_tuple_int (some t) = t.int16) ∧
    (∀ t : Tuple, t.length = 4 → get_tuple_int (some t) = t.int32) ∧
    (∀ t : Tuple, t.length ≠ 1 → t.length ≠ 2 → get_tuple_int (some t) = t.int32) ∧
    (∀ t : Tuple, -128 ≤ t.int8 ∧ t.int8 ≤ 127 ∧ t.int8 % 256 = (t.byte 0 : Int)) ∧
    (∀ t : Tuple, -32768 ≤ t.int16 ∧ t.int16 ≤ 32767 ∧
      t.int16 % 65536 = ((t.byte 0 + 256 * t.byte 1 : Nat) : Int)) ∧
    (∀ t : Tuple, -2147483648 ≤ t.int32 ∧ t.int32 ≤ 2147483647 ∧
      t.int32 % 4294967296 =
        ((t.byte 0 + 256 * t.byte 1 + 65536 * t.byte 2 + 16777216 * t.byte 3 : Nat) : Int)) ∧
    (∀ (k : Nat) (v : Int), -128 ≤ v → v ≤ 127 →
      get_tuple_int (some ⟨k, 1, encode_int8 v⟩) = v) ∧
    (∀ (k : Nat) (v : Int), -32768 ≤ v → v ≤ 32767 →
      get_tuple_int (some ⟨k, 2, encode_int16 v⟩) = v) ∧
    (∀ (k : Nat) (v : Int), -2147483648 ≤ v → v ≤ 2147483647 →
      get_tuple_int (some ⟨k, 4, encode_int32 v⟩) = v) := by
  have hb : ∀ (t : Tuple) (i : Nat), t.byte i < 256 := by
    intro t i
    exact Nat.mod_lt _ (by decide)
  refine ⟨rfl, ?_, ?_, ?_, ?_, ?_, ?_, ?_, ?_, ?_, ?_⟩
  · intro t h; simp [get_tuple_int, h]
  · intro t h; simp [get_tuple_int, h]
  · intro t h; simp [get_tuple_int, h]
  · intro t h1 h2; simp [get_tuple_int, h1, h2]
  · intro t
    have := hb t 0
    simp only [Tuple.int8]
    split <;> omega
  · intro t
    have := hb t 0
    have := hb t 1
    simp only [Tuple.int16]
    split <;> omega
  · intro t
    have := hb t 0
    have := hb t 1
    have := hb t 2
    have := hb t 3
    simp only [Tuple.int32]
    split <;> omega
  · intro k v h1 h2
    simp only [get_tuple_int, encode_int8, Tuple.int8, Tuple.byte, List.getD_cons_zero, if_true]
    split <;> omega
  · intro k v h1 h2
    simp only [get_tuple_int, encode_int16, Tuple.int16, Tuple.byte, List.getD_cons_zero,
      List.getD_cons_succ]
    simp only [show (2 : Nat) ≠ 1 by decide, if_false, if_true]
    split <;> omega
  · intro k v h1 h2
    simp only [get_tuple_int, encode_int32, Tuple.int32, Tuple.byte, List.getD_cons_zero,
      List.getD_cons_succ]
    simp only [show (4 : Nat) ≠ 1 by decide, show (4 : Nat) ≠ 2 by decide, if_false, if_true]
    split <;> omega

/-- C17 at concrete values: -1 in one byte, -300 in two bytes, 70000 in four. -/
theorem tuple_decoder_witness :
    encode_int8 (-1) = [255] ∧
    get_tuple_int (some ⟨KEY_VOLUME_VAL, 1, encode_int8 (-1)⟩) = -1 ∧
    get_tuple_int (some ⟨KEY_VOLUME_VAL, 2, encode_int16 (-300)⟩) = -300 ∧
    get_tuple_int (some ⟨KEY_VOLUME_VAL, 4, encode_int32 70000⟩) = 70000 ∧
    get_tuple_int (some ⟨KEY_VOLUME_VAL, 3, [1, 0, 0, 0]⟩) =
      Tuple.int32 ⟨KEY_VOLUME_VAL, 3, [1, 0, 0, 0]⟩ :=
  ⟨by decide,
   tuple_decoder.2.2.2.2.2.2.2.2.1 KEY_VOLUME_VAL (-1) (by decide) (by decide),
   tuple_decoder.2.2.2.2.2.2.2.2.2.1 KEY_VOLUME_VAL (-300) (by decide) (by decide),
   tuple_decoder.2.2.2.2.2.2.2.2.2.2 KEY_VOLUME_VAL 70000 (by decide) (by decide),
   tuple_decoder.2.2.2.2.1 ⟨KEY_VOLUME_VAL, 3, [1, 0, 0, 0]⟩ (by decide) (by decide)⟩

/-- C18. Transport refusal is transient: with the channel ready and the window loaded,
when `app_message_outbox_begin` does not answer `APP_MSG_OK`, `send_command` only
makes that one call: nothing is sent, no timer is touched and the channel stays
ready. The next `send_command` calls the outbox again, and hands its command over as
soon as the outbox accepts. -/
theorem transport_refusal (cmd : String) (w : World) (hr : w.s_network_ready = true)
    (hl : w.s_window_loaded = true) (hno : w.outbox_result ≠ .APP_MSG_OK) :
    send_command cmd w = { w with outbox_begin_calls := w.outbox_begin_calls + 1 } ∧
    (send_command cmd w).sent = w.sent ∧
    (send_command cmd w).timers = w.timers ∧
    (send_command cmd w).s_network_ready = true ∧
    (send_command cmd w).s_network_cooldown_timer = w.s_network_cooldown_timer ∧
    (∀ cmd' : String,
      (send_command cmd' (send_command cmd w)).outbox_begin_calls =
        w.outbox_begin_calls + 2) ∧
    (∀ cmd' : String,
      (send_command cmd' (step (send_command cmd w) (.outbox .APP_MSG_OK))).sent =
        w.sent ++ [(w.now, cmd')]) := by
  have e : send_command cmd w = { w with outbox_begin_calls := w.outbox_begin_calls + 1 } := by
    rw [send_command_eq]
    simp [hr, hl, hno]
  rw [e]
  refine ⟨rfl, rfl, rfl, hr, rfl, ?_, ?_⟩
  · intro cmd'
    rw [send_command_eq]
    simp [hr, hl, hno]
  · intro cmd'
    exact send_command_sent cmd' _ hl hr rfl

/-- C18 on a loaded window with a busy outbox. -/
theorem transport_refusal_witness :
    (send_command "next" busy_world).sent = busy_world.sent ∧
    (send_command "next" busy_world).timers = busy_world.timers ∧
    (send_command "next" busy_world).s_network_ready = true ∧
    (send_command "previous" (send_command "next" busy_world)).outbox_begin_calls =
      busy_world.outbox_begin_calls + 2 :=
  ⟨(transport_refusal "next" busy_world (by decide) (by decide) (by decide)).2.1,
   (transport_refusal "next" busy_world (by decide) (by decide) (by decide)).2.2.1,
   (transport_refusal "next" busy_world (by decide) (by decide) (by decide)).2.2.2.1,
   (transport_refusal "next" busy_world (by decide) (by decide) (by decide)).2.2.2.2.2.1
     "previous"⟩

/-- C20. No stale fire is reachable: in every state reached from the initial state, a
pending Zone revert timer means the mode is Zone, at most one Zone revert timer is
pending, and the delivery of a pending, due Zone revert timer turns the mode from
Zone to Track and leaves none pending. -/
theorem no_stale_fire (es : List Event) :
    (∀ tm ∈ (run World.init es).timers, tm.callback = .zone_revert_callback →
      (run World.init es).s_mode = .MODE_ZONE) ∧
    ((run World.init es).pending .zone_revert_callback).length ≤ 1 ∧
    (∀ tm ∈ (run World.init es).timers, tm.callback = .zone_revert_callback →
      tm.deadline ≤ (run World.init es).now →
      (run World.init es).s_mode = .MODE_ZONE ∧
      (fire_timer tm.id (run World.init es)).s_mode = .MODE_TRACK ∧
      (fire_timer tm.id (run World.init es)).pending .zone_revert_callback = []) := by
  have hW : WF (run World.init es) := WF_run WF_init es
  have hZ : ZoneLive (run World.init es) :=
    ZoneLive_run WF_init (fun tm hm => by simp [World.init] at hm) es
  refine ⟨hZ, pending_length_le_one hW _, ?_⟩
  intro tm hm hc hdue
  obtain ⟨h1, h2, -, -⟩ := fire_zone_timer hW hm hc hdue (hZ tm hm hc)
  exact ⟨hZ tm hm hc, h1, h2⟩

/-- C20 on a run: Select at time 0 and 4000 ms without input; the pending timer is
due, and its delivery reverts the mode. -/
theorem no_stale_fire_witness :
    (run World.init [.load, .select, .tick 4000]).s_mode = .MODE_ZONE ∧
    (fire_timer 1 (run World.init [.load, .select, .tick 4000])).s_mode = .MODE_TRACK ∧
    (fire_timer 1 (run World.init [.load, .select, .tick 4000])).pending
      .zone_revert_callback = [] :=
  (no_stale_fire [.load, .select, .tick 4000]).2.2 ⟨1, 4000, .zone_revert_callback⟩
    (by decide) rfl (by decide)

end PebbleRoon
